import Mathlib

/-!
# foundation: connection registry (`lib/dbmgr/db.go`) and configuration store
(`services/config/config.go`)

A shallow embedding of the two Go source files and the properties proved about them.

Modelling conventions

* Go strings are modelled by Lean strings; the library functions used by the source
  (`strings.ReplaceAll`, `strings.Contains`, `strings.Split`, `strings.Join`,
  `filepath.Join`) are modelled on the characters of a string.
* Go maps (`dsns`, `dbs`) are association lists read by key; a nil map is `none`.
* A `*gorm.DB` is a handle number; an `error` is its text (the source inspects
  `lerr.Error()`), and a nil error is `none`.
* Every call that leaves the process (configuration load, `gorm.Open`, `Exec`, `Raw`,
  `db.DB()`, `Close`) is answered by a `World`: a family of functions of the history of
  calls made so far. Each call and its answer is appended to the trace of the state.
* Logging (`core.Log`, `core.Debug`, `core.Err`) has no effect on the state and is left out.
-/

namespace Dbmgr

/-! ## Strings -/

/-- Whether `pat` is an initial segment of `s` (the test behind `strings.Index`). -/
def startsWith : List Char → List Char → Bool
  | [], _ => true
  | _ :: _, [] => false
  | p :: ps, c :: cs => p == c && startsWith ps cs

/-- Go `strings.Contains` on character lists: `sub` occurs somewhere in `s`. -/
def containsL (sub : List Char) : List Char → Bool
  | [] => sub.isEmpty
  | c :: cs => startsWith sub (c :: cs) || containsL sub cs

/-- Go `strings.Contains(s, sub)`. -/
def stringsContains (s sub : String) : Bool := containsL sub.data s.data

/-- The scan of `strings.Replace` for a non-empty `old`: the first argument counts the
characters of a matched occurrence that are still to be skipped. At each position outside
a match the leftmost occurrence is replaced and the scan resumes after it. -/
def replaceScan (old new : List Char) : Nat → List Char → List Char
  | _, [] => []
  | k + 1, _ :: cs => replaceScan old new k cs
  | 0, c :: cs =>
    if startsWith old (c :: cs) then new ++ replaceScan old new (old.length - 1) cs
    else c :: replaceScan old new 0 cs

/-- Go `strings.ReplaceAll` on character lists. With an empty `old` Go inserts `new` before
every character and at the end. -/
def replaceAllL (s old new : List Char) : List Char :=
  match old with
  | [] => (s.flatMap fun c => new ++ [c]) ++ new
  | _ :: _ => replaceScan old new 0 s

/-- Go `strings.ReplaceAll(s, old, new)`. -/
def stringsReplaceAll (s old new : String) : String :=
  ⟨replaceAllL s.data old.data new.data⟩

/-! ## Go maps -/

/-- A Go `map[string]β`: the value of a key is the first entry carrying it. -/
abbrev GoMap (β : Type) := List (String × β)

/-- Go `v, ok := m[n]`. -/
def mget {β : Type} : GoMap β → String → Option β
  | [], _ => none
  | (k, v) :: m, n => if k = n then some v else mget m n

/-- Go `delete(m, n)`. -/
def mdel {β : Type} (m : GoMap β) (n : String) : GoMap β :=
  m.filter fun kv => decide (kv.1 ≠ n)

/-- Go `m[n] = v`. -/
def mset {β : Type} (m : GoMap β) (n : String) (v : β) : GoMap β :=
  mdel m n ++ [(n, v)]

/-- The keys of a map, each once, in the order of its entries. -/
def mkeys {β : Type} (m : GoMap β) : List String :=
  (m.map Prod.fst).dedup

/-- Go `len(m)`. -/
def mlen {β : Type} (m : GoMap β) : Nat := (mkeys m).length

/-! ## Connection-string resolution (`DBN`, lines 91-99) -/

/-- The DSN mapping `dsns`: logical name (or `"default"`) to connection-string template. -/
abbrev DsnMap := GoMap String

/-- The placeholder substituted by the logical name. -/
def placeholder : String := "${DBNAME}"

/-- The template installed under `"default"` when the initial load fails (line 73). -/
def defaultTemplate : String :=
  "host=postgres user=postgres password=postgres dbname=${DBNAME}"

/-- Reading the (possibly nil) map `dsns`: a nil map has no key. -/
def dsnLookup (dsns : Option DsnMap) (n : String) : Option String :=
  match dsns with
  | none => none
  | some m => mget m n

/-- Lines 91-99 of `DBN`: the connection string used for the logical name `n`. -/
def resolveDsn (dsns : Option DsnMap) (n : String) : String :=
  match dsnLookup dsns n with
  | some dsn => dsn
  | none =>
    match dsnLookup dsns "default" with
    | some dsn => stringsReplaceAll dsn "${DBNAME}" n
    | none => "host=postgres user=postgres password=postgres dbname=" ++ n

/-- The resolver as the specification words it: the entry of `n` unchanged, else the
`"default"` entry with the placeholder replaced, else the built-in default template with
the placeholder replaced. -/
def resolveSpec (m : DsnMap) (n : String) : String :=
  match mget m n with
  | some dsn => dsn
  | none =>
    match mget m "default" with
    | some t => stringsReplaceAll t placeholder n
    | none => stringsReplaceAll defaultTemplate placeholder n


/-! ## The world outside the process and the registry state -/

/-- A connection handle (`*gorm.DB`). -/
abbrev Handle := Nat

/-- An error, by its text; `none` stands for a nil error. -/
abbrev Err := String

/-- What `gorm.Open` returns: a handle with a nil error, or an error together with
whatever handle value came with it. -/
inductive OpenResult
  | ok (h : Handle)
  | fail (leftover : Option Handle) (e : Err)
  deriving DecidableEq, Repr

/-- What `cfgmgr.Load("dsn", &dsns)` does: a nil error and the value it left in `dsns`
(possibly still nil), or an error. -/
inductive LoadResult
  | ok (m : Option DsnMap)
  | fail (e : Err)
  deriving DecidableEq, Repr

/-- The calls the registry makes and the cache writes it performs, with their answers. -/
inductive Event
  | cfgLoad (r : LoadResult)
  | listen
  | gormOpen (dsn : String) (relaxed : Bool) (r : OpenResult)
  | exec (h : Handle) (stmt : String) (r : Option Err)
  | raw (h : Handle) (q : String) (r : Option Err)
  | saveDb (n : String) (h : Handle)
  | sqlDB (h : Handle) (r : Option Err)
  | close (h : Handle) (r : Option Err)
  | delDb (n : String)
  deriving DecidableEq, Repr

/-- A YAML document as the decoder sees it for a `map[string]string` target: the null
document, a mapping, or a document on which decoding fails after having decoded the
entries `decoded` (`none`: nothing was decoded). -/
inductive YamlDoc
  | null
  | mapping (m : DsnMap)
  | invalid (e : Err) (decoded : Option DsnMap)
  deriving DecidableEq, Repr

/-- The answers of everything outside the process; each may depend on all calls made so
far. `gormOpen` takes the DSN and whether `DisableForeignKeyConstraintWhenMigrating` is
set (the first attempt sets it, the retry does not). -/
structure World where
  cfgLoad : List Event → LoadResult
  gormOpen : List Event → String → Bool → OpenResult
  exec : List Event → Handle → String → Option Err
  rawSelect : List Event → Handle → String → Option Err
  sqlDB : List Event → Handle → Option Err
  closeDb : List Event → Handle → Option Err
  yamlParse : String → YamlDoc

/-- The package-level variables `dsns` and `dbs`, and the trace of events so far. -/
structure State where
  dsns : Option DsnMap
  dbs : GoMap Handle
  trace : List Event
  deriving DecidableEq, Repr

/-- How a call ends: it returns `(ret, err)`, it dereferences a nil handle, or the
recursion budget of the model is exhausted before it returns. -/
inductive Outcome
  | ret (h : Option Handle) (err : Option Err)
  | nilDeref
  | outOfFuel
  deriving DecidableEq, Repr

/-- Append an event to the trace. -/
def logEv (s : State) (e : Event) : State :=
  { s with trace := s.trace ++ [e] }

/-- Go `saveDb`: `dbs[n] = d`. -/
def saveDb (n : String) (d : Handle) (s : State) : State :=
  { s with dbs := mset s.dbs n d, trace := s.trace ++ [Event.saveDb n d] }

/-- Go `loadDb`: `d, ok = dbs[n]`. -/
def loadDb (n : String) (s : State) : Option Handle := mget s.dbs n

/-- Go `delDb`: `delete(dbs, n)`. -/
def delDb (n : String) (s : State) : State :=
  { s with dbs := mdel s.dbs n, trace := s.trace ++ [Event.delDb n] }

/-- Lines 68-87 of `DBN`: when `dsns` is nil, load it, fall back to the built-in mapping
when the load fails, and start the listener. Returns the value left in the named result
`err`. -/
def loadDsns (w : World) (s : State) : Option Err × State :=
  match s.dsns with
  | some _ => (none, s)
  | none =>
    match w.cfgLoad s.trace with
    | LoadResult.ok m =>
      (none, { s with dsns := m,
                      trace := s.trace ++ [Event.cfgLoad (LoadResult.ok m), Event.listen] })
    | LoadResult.fail e =>
      (some e,
        { s with
          dsns := some [("default",
            "host=postgres user=postgres password=postgres dbname=${DBNAME}")],
          trace := s.trace ++ [Event.cfgLoad (LoadResult.fail e), Event.listen] })

/-- Line 111: the error text names a missing database. -/
def missingDb (e : Err) : Bool :=
  stringsContains e "database" && stringsContains e "does not exist"

/-- Lines 133-141 of `DBN`: the liveness expression `ret.Raw("select 1+1").Error` on the
opened handle, then `saveDb`. The world answers the expression; with gorm, `Raw` only builds
the statement, so the answer of the real library after a successful open is no error. -/
def checkAndSave (w : World) (n : String) (h : Handle) (s : State) : Outcome × State :=
  let r := w.rawSelect s.trace h "select 1+1"
  let s1 := logEv s (Event.raw h "select 1+1" r)
  match r with
  | some e => (Outcome.ret (some h) (some e), s1)
  | none => (Outcome.ret (some h) none, saveDb n h s1)

/-- Lines 122-141 of `DBN`: the second `gorm.Open`, without the relaxed option, and what
follows it. -/
def retryOpen (w : World) (n dsn : String) (s : State) : Outcome × State :=
  let r := w.gormOpen s.trace dsn false
  let s1 := logEv s (Event.gormOpen dsn false r)
  match r with
  | OpenResult.ok h => checkAndSave w n h s1
  | OpenResult.fail lo e => (Outcome.ret lo (some e), s1)

/-- Go `DBN`. The first argument bounds the depth of the recursion through `DBMaster`
(`DBN("postgres")`), which the source does not bound. -/
def DBN (w : World) : Nat → String → State → Outcome × State
  | 0, _, s => (Outcome.outOfFuel, s)
  | fuel + 1, n, s =>
    let s1 := (loadDsns w s).2
    match loadDb n s1 with
    | some h => (Outcome.ret (some h) (loadDsns w s).1, s1)
    | none =>
      let dsn := resolveDsn s1.dsns n
      let r := w.gormOpen s1.trace dsn true
      let s2 := logEv s1 (Event.gormOpen dsn true r)
      match r with
      | OpenResult.ok h => checkAndSave w n h s2
      | OpenResult.fail _ e =>
        if missingDb e then
          match DBN w fuel "postgres" s2 with
          | (Outcome.ret db none, s3) =>
            match db with
            | none => (Outcome.nilDeref, s3)
            | some hm =>
              let stmt := "create database " ++ n ++ ";"
              let x := w.exec s3.trace hm stmt
              let s4 := logEv s3 (Event.exec hm stmt x)
              match x with
              | some e2 => (Outcome.ret none (some e2), s4)
              | none => retryOpen w n dsn s4
          | (Outcome.ret _ (some e1), s3) => (Outcome.ret none (some e1), s3)
          | (o, s3) => (o, s3)
        else retryOpen w n dsn s2

/-- Go `DBMaster`: `DBN("postgres")`. -/
def DBMaster (w : World) (fuel : Nat) (s : State) : Outcome × State :=
  DBN w fuel "postgres" s

/-- Go `DBClose`. -/
def DBClose (w : World) (n : String) (s : State) : Option Err × State :=
  match loadDb n s with
  | none => (none, s)
  | some h =>
    match w.sqlDB s.trace h with
    | some e => (some e, logEv s (Event.sqlDB h (some e)))
    | none =>
      let s1 := logEv s (Event.sqlDB h none)
      match w.closeDb s1.trace h with
      | some e => (some e, logEv s1 (Event.close h (some e)))
      | none => (none, delDb n (logEv s1 (Event.close h none)))

/-- The slice `ks` of `DBCloseAll`: `make([]string, len(dbs))` holds `len(dbs)` empty
strings, and the keys are appended after them, in the order `order` in which
`for k := range dbs` yields them. -/
def closeAllKeys (order : List String) (s : State) : List String :=
  List.replicate (mlen s.dbs) "" ++ order

/-- The second loop of `DBCloseAll`: `DBClose` on each name, its error dropped. -/
def closeEach (w : World) : List String → State → State
  | [], s => s
  | k :: ks, s => closeEach w ks (DBClose w k s).2

/-- Go `DBCloseAll`. Go leaves the order in which `range` visits a map open: `order` is
the sequence of keys the first loop yields. -/
def DBCloseAll (w : World) (order : List String) (s : State) : State :=
  closeEach w (closeAllKeys order s) s

/-- The registry before the first call: `dsns` nil, no connection cached. -/
def initState : State := { dsns := none, dbs := [], trace := [] }

/-! ## The configuration listener (lines 76-86) -/

/-- Setting the entries of `doc` into the map `m`, as a decoder that fills an existing map
does: keys of `doc` get the value of `doc`, other keys of `m` stay. -/
def overlay (m doc : DsnMap) : DsnMap :=
  doc.foldr (fun kv acc => mset acc kv.1 kv.2) m

/-- The effect of `Decode(&dsns)` of gopkg.in/yaml.v3 (a library outside the repository)
on a `map[string]string` target: a null document sets the target to nil; a mapping
allocates a map only when the target is nil and otherwise sets its entries in the map the
target already holds. Returns the new target and the error. -/
def yamlDecodeInto (doc : YamlDoc) (target : Option DsnMap) : Option DsnMap × Option Err :=
  match doc, target with
  | YamlDoc.null, _ => (none, none)
  | YamlDoc.mapping m, none => (some m, none)
  | YamlDoc.mapping m, some old => (some (overlay old m), none)
  | YamlDoc.invalid e none, t => (t, some e)
  | YamlDoc.invalid e (some m), none => (some m, some e)
  | YamlDoc.invalid e (some m), some old => (some (overlay old m), some e)

/-- One turn of the listener loop: the payload received on the channel is decoded into
`dsns`; the error is only logged. -/
def listenerStep (w : World) (payload : String) (s : State) : State :=
  { s with dsns := (yamlDecodeInto (w.yamlParse payload) s.dsns).1 }

/-! ## Reading a trace -/

/-- The events `loadDsns` appends: none when `dsns` is already set. -/
def loadEvents (w : World) (s : State) : List Event :=
  match s.dsns with
  | some _ => []
  | none => [Event.cfgLoad (w.cfgLoad s.trace), Event.listen]

/-- The cache obtained from `m` by the cache writes recorded in a trace. -/
def replay : List Event → GoMap Handle → GoMap Handle
  | [], m => m
  | Event.saveDb n h :: es, m => replay es (mset m n h)
  | Event.delDb n :: es, m => replay es (mdel m n)
  | _ :: es, m => replay es m

/-- The event is no `saveDb`, or it is a `saveDb n h` and the event before it is the
liveness query on `h` answered without error. -/
def isCheckedSave (prev : Option Event) : Event → Bool
  | Event.saveDb _ h => decide (prev = some (Event.raw h "select 1+1" none))
  | _ => true

/-- Every `saveDb` of the trace directly follows a successful liveness query on the handle
it saves; the first argument is the event before the trace. -/
def savesChecked : Option Event → List Event → Bool
  | _, [] => true
  | prev, ev :: es => isCheckedSave prev ev && savesChecked (some ev) es

/-- A liveness query answered with an error is the last event of the trace, and the call
returns that error. -/
def failLast (out : Outcome) : List Event → Prop
  | [] => True
  | Event.raw _ _ (some e) :: es => es = [] ∧ ∃ x, out = Outcome.ret x (some e)
  | _ :: es => failLast out es

/-- The statement `DBN` issues to create the database `n` (line 116). -/
def createStmt (n : String) : String := "create database " ++ n ++ ";"

/-- The event is an `Exec` of the statement `stmt`. -/
def isExecOf (stmt : String) : Event → Bool
  | Event.exec _ q _ => decide (q = stmt)
  | _ => false

/-- The event is a `gorm.Open`. -/
def isOpen : Event → Bool
  | Event.gormOpen _ _ _ => true
  | _ => false

/-- The event is a `gorm.Open` without the relaxed option (the retry of line 122). -/
def isRetryOpen : Event → Bool
  | Event.gormOpen _ false _ => true
  | _ => false

/-- The event is an `Exec`. -/
def isExec : Event → Bool
  | Event.exec _ _ _ => true
  | _ => false

/-- The event is a liveness query answered with an error. -/
def isFailedRaw : Event → Bool
  | Event.raw _ _ (some _) => true
  | _ => false

/-- The event is a cache write. -/
def isCacheWrite : Event → Bool
  | Event.saveDb _ _ => true
  | Event.delDb _ => true
  | _ => false

/-- Every `Exec` of the trace is the create statement for `n` or for `"postgres"`. -/
def execsCreate (n : String) (new : List Event) : Prop :=
  ∀ ev ∈ new, isExec ev = true →
    isExecOf (createStmt n) ev = true ∨ isExecOf (createStmt "postgres") ev = true

/-- The events `new` lead from `s` to the final state of the run `r` of `DBN` on `n`: they
are what the run appended to the trace, the cache changed by the writes among them only,
every `saveDb` follows its successful liveness query, a failed liveness query ends the
run with its error, and only create statements are executed. -/
def Run (n : String) (s : State) (r : Outcome × State) (new : List Event) : Prop :=
  r.2.trace = s.trace ++ new ∧ r.2.dbs = replay new s.dbs ∧
    savesChecked none new = true ∧ failLast r.1 new ∧ execsCreate n new

/-! ## Concrete worlds -/

/-- The scenario of the specification: the mapping holds only a `"default"` template, the
administrative database can be opened, and the database "orders" cannot be opened until a
`create database orders;` has been executed. As `gorm.Open` does, a failed open returns a
non-nil handle (here 9) together with its error. -/
def ordersWorld : World where
  cfgLoad := fun _ => LoadResult.ok (some [("default", "host=db user=u dbname=${DBNAME}")])
  gormOpen := fun hist dsn _ =>
    if dsn = "host=db user=u dbname=postgres" then OpenResult.ok 1
    else if hist.any (isExecOf (createStmt "orders")) then OpenResult.ok 2
    else OpenResult.fail (some 9)
      "FATAL: database \"orders\" does not exist (SQLSTATE 3D000)"
  exec := fun _ _ _ => none
  rawSelect := fun _ _ _ => none
  sqlDB := fun _ _ => none
  closeDb := fun _ _ => none
  yamlParse := fun _ => YamlDoc.null

/-- A world in which the first configuration load returns no error and leaves `dsns` nil
(an empty configuration value), later loads fail, and every connection opens. -/
def staleWorld : World where
  cfgLoad := fun hist =>
    if hist = [] then LoadResult.ok none else LoadResult.fail "config: source unavailable"
  gormOpen := fun _ _ _ => OpenResult.ok 7
  exec := fun _ _ _ => none
  rawSelect := fun _ _ _ => none
  sqlDB := fun _ _ => none
  closeDb := fun _ _ => none
  yamlParse := fun _ => YamlDoc.null

/-- A world in which the first configuration load succeeds with an empty mapping, later
loads fail, every connection opens, and the payload `null` is the null document. -/
def nullWorld : World where
  cfgLoad := fun hist =>
    if hist = [] then LoadResult.ok (some []) else LoadResult.fail "config: source unavailable"
  gormOpen := fun _ _ _ => OpenResult.ok 7
  exec := fun _ _ _ => none
  rawSelect := fun _ _ _ => none
  sqlDB := fun _ _ => none
  closeDb := fun _ _ => none
  yamlParse := fun p =>
    if p = "null" then YamlDoc.null else YamlDoc.invalid "yaml: error" none

/-- A world in which the first `gorm.Open` is refused and the retry succeeds. -/
def flakyWorld : World where
  cfgLoad := fun _ => LoadResult.ok (some [])
  gormOpen := fun _ _ relaxed =>
    if relaxed then OpenResult.fail (some 8) "dial tcp: connection refused"
    else OpenResult.ok 5
  exec := fun _ _ _ => none
  rawSelect := fun _ _ _ => none
  sqlDB := fun _ _ => none
  closeDb := fun _ _ => none
  yamlParse := fun _ => YamlDoc.null

/-- A world in which the first `gorm.Open` is refused and the retry times out. As
`gorm.Open` does, each failed open returns a non-nil handle (8, then 9) together with its
error. -/
def refusingWorld : World where
  cfgLoad := fun _ => LoadResult.ok (some [])
  gormOpen := fun _ _ relaxed =>
    if relaxed then OpenResult.fail (some 8) "dial tcp: connection refused"
    else OpenResult.fail (some 9) "dial tcp: i/o timeout"
  exec := fun _ _ _ => none
  rawSelect := fun _ _ _ => none
  sqlDB := fun _ _ => none
  closeDb := fun _ _ => none
  yamlParse := fun _ => YamlDoc.null

/-- A world in which the administrative database itself is reported missing by the first
two opens and every later open succeeds: the `k`-th open after them returns handle `k`. -/
def selfWorld : World where
  cfgLoad := fun _ => LoadResult.ok (some [])
  gormOpen := fun hist _ _ =>
    match (hist.filter isOpen).length with
    | 0 => OpenResult.fail (some 9) "FATAL: database \"postgres\" does not exist (SQLSTATE 3D000)"
    | 1 => OpenResult.fail (some 9) "FATAL: database \"postgres\" does not exist (SQLSTATE 3D000)"
    | k + 2 => OpenResult.ok (k + 1)
  exec := fun _ _ _ => none
  rawSelect := fun _ _ _ => none
  sqlDB := fun _ _ => none
  closeDb := fun _ _ => none
  yamlParse := fun _ => YamlDoc.null

/-- The world of `ordersWorld`, except that the first open of the administrative database
is refused and only its retry succeeds. -/
def adminRetryWorld : World where
  cfgLoad := fun _ => LoadResult.ok (some [("default", "host=db user=u dbname=${DBNAME}")])
  gormOpen := fun hist dsn relaxed =>
    if dsn = "host=db user=u dbname=postgres" then
      if relaxed then OpenResult.fail (some 8) "dial tcp: connection refused"
      else OpenResult.ok 1
    else if hist.any (isExecOf (createStmt "orders")) then OpenResult.ok 2
    else OpenResult.fail (some 9)
      "FATAL: database \"orders\" does not exist (SQLSTATE 3D000)"
  exec := fun _ _ _ => none
  rawSelect := fun _ _ _ => none
  sqlDB := fun _ _ => none
  closeDb := fun _ _ => none
  yamlParse := fun _ => YamlDoc.null

/-- A world in which connections open, the first handle opened is 3 and later ones are 4,
and closing a connection fails. -/
def stuckWorld : World where
  cfgLoad := fun _ => LoadResult.ok (some [])
  gormOpen := fun hist _ _ => if hist.any isOpen then OpenResult.ok 4 else OpenResult.ok 3
  exec := fun _ _ _ => none
  rawSelect := fun _ _ _ => none
  sqlDB := fun _ _ => none
  closeDb := fun _ _ => some "sql: close failed"
  yamlParse := fun _ => YamlDoc.null

/-- A world in which connections open (the first handle opened is 3, later ones are 4),
closing handle 4 fails and closing any other handle succeeds. -/
def halfWorld : World where
  cfgLoad := fun _ => LoadResult.ok (some [])
  gormOpen := fun hist _ _ => if hist.any isOpen then OpenResult.ok 4 else OpenResult.ok 3
  exec := fun _ _ _ => none
  rawSelect := fun _ _ _ => none
  sqlDB := fun _ _ => none
  closeDb := fun _ h => if h = 4 then some "sql: close failed" else none
  yamlParse := fun _ => YamlDoc.null

/-- A world in which connections open (the first handle opened is 3, later ones are 4) and
close without error. -/
def calmWorld : World where
  cfgLoad := fun _ => LoadResult.ok (some [])
  gormOpen := fun hist _ _ => if hist.any isOpen then OpenResult.ok 4 else OpenResult.ok 3
  exec := fun _ _ _ => none
  rawSelect := fun _ _ _ => none
  sqlDB := fun _ _ => none
  closeDb := fun _ _ => none
  yamlParse := fun p =>
    if p = "b: two" then YamlDoc.mapping [("b", "two")] else YamlDoc.invalid "yaml: error" none

end Dbmgr

namespace Config

/-! ## The configuration store (`services/config/config.go`)

Paths are Unix paths. The calls the handlers make to the operating system and to the
message bus are answered by an `Os`, each answer a function of the calls made so far, and
are recorded in the history the handlers return. -/

/-- Go `strings.Split(s, "/")` on character lists; the result is never empty. -/
def splitSlash : List Char → List (List Char)
  | [] => [[]]
  | c :: cs =>
    if c = '/' then [] :: splitSlash cs
    else
      match splitSlash cs with
      | [] => [[c]]
      | p :: ps => (c :: p) :: ps

/-- Go `strings.Join(parts, "/")` on character lists. -/
def joinSlash (parts : List (List Char)) : List Char :=
  List.intercalate ['/'] parts

/-- One path element of `filepath.Clean`, against the elements kept so far (last first):
empty and `.` elements are dropped, `..` removes the element before it, is dropped at the
root, and is kept where a relative path has nothing left to remove. -/
def cleanStep (rooted : Bool) (acc : List (List Char)) (c : List Char) : List (List Char) :=
  if c = [] ∨ c = ['.'] then acc
  else if c = ['.', '.'] then
    match acc with
    | [] => if rooted then [] else [c]
    | top :: rest => if top = ['.', '.'] then c :: acc else rest
  else c :: acc

/-- Go `filepath.Clean` on character lists. -/
def filepathClean (p : List Char) : List Char :=
  match p with
  | [] => ['.']
  | c :: _ =>
    let rooted := decide (c = '/')
    let body := joinSlash ((splitSlash p).foldl (cleanStep rooted) []).reverse
    if rooted then '/' :: body
    else if body = [] then ['.'] else body

/-- Go `filepath.Join`: leading empty elements are skipped, the rest is joined with `/`
and cleaned; the result is empty when every element is. -/
def filepathJoin : List String → String
  | [] => ""
  | e :: es =>
    if e = "" then filepathJoin es
    else ⟨filepathClean (joinSlash ((e :: es).map String.data))⟩

/-- Go `filepath.Dir`: the path up to and including its last `/`, cleaned. -/
def filepathDir (p : String) : String :=
  ⟨filepathClean (p.data.reverse.dropWhile fun c => decide (c ≠ '/')).reverse⟩

/-- The package variable `root`. -/
def root : String := "db"

/-- Go `fixPath` on the URL path of the request: the path elements after the second one,
joined again. `none` when `pathparts[2:]` is out of range (the path has no `/`). -/
def fixPath (urlPath : String) : Option String :=
  let pathparts := splitSlash urlPath.data
  if pathparts.length < 2 then none
  else some ⟨joinSlash (pathparts.drop 2)⟩

/-- The file `get` reads (line 54). -/
def getFile (urlPath : String) : Option String :=
  (fixPath urlPath).map fun npath => filepathJoin [root, npath ++ ".yaml"]

/-- The file `post` writes (line 84). -/
def postFile (urlPath : String) : Option String :=
  (fixPath urlPath).map fun npath => filepathJoin [root, npath ++ ".yaml"]

/-- The file `delete` removes (line 92). -/
def deleteFile (urlPath : String) : Option String :=
  (fixPath urlPath).map fun npath => filepathJoin [root, npath]

/-- What a read or a conversion returns: the bytes, or an error. -/
inductive ReadResult
  | ok (bytes : String)
  | fail (e : Dbmgr.Err)
  deriving DecidableEq, Repr

/-- The calls a handler makes, with their answers: `os.MkdirAll` (its result is dropped by
the source), `os.ReadFile`, `os.WriteFile`, `os.Remove`, `redismgr.Pub`, and the write of
the response body. -/
inductive FsEvent
  | mkdirAll (path : String)
  | readFile (path : String) (r : ReadResult)
  | writeFile (path : String) (bytes : String) (r : Option Dbmgr.Err)
  | remove (path : String) (r : Option Dbmgr.Err)
  | pub (channel : String) (msg : String)
  | respond (bytes : String)
  deriving DecidableEq, Repr

/-- The answers of the operating system, each a function of the calls made so far, and
the two conversions `json2Yaml` and `yaml2Json` of the source, which only call the JSON
and YAML libraries. -/
structure Os where
  readFile : List FsEvent → String → ReadResult
  writeFile : List FsEvent → String → String → Option Dbmgr.Err
  remove : List FsEvent → String → Option Dbmgr.Err
  json2Yaml : String → ReadResult
  yaml2Json : String → ReadResult

/-- What a handler reads of the request: the URL path, whether the query has `fmt=json`,
and what `io.ReadAll(r.Body)` returns. -/
structure Request where
  urlPath : String
  fmtJson : Bool
  body : ReadResult
  deriving DecidableEq, Repr

/-- Go `get`: the returned error and the history after the call; `none` when `fixPath` is
out of range. -/
def get (os : Os) (hist : List FsEvent) (r : Request) :
    Option (Option Dbmgr.Err × List FsEvent) :=
  match fixPath r.urlPath with
  | none => none
  | some npath =>
    let f := filepathJoin [root, npath ++ ".yaml"]
    let x := os.readFile hist f
    let hist1 := hist ++ [FsEvent.readFile f x]
    match x with
    | ReadResult.fail e => some (some e, hist1)
    | ReadResult.ok bs =>
      if r.fmtJson then
        match os.yaml2Json bs with
        | ReadResult.fail e => some (some e, hist1)
        | ReadResult.ok js => some (none, hist1 ++ [FsEvent.respond js])
      else some (none, hist1 ++ [FsEvent.respond bs])

/-- Go `post`: the returned error and the history after the call; `none` when `fixPath` is
out of range. -/
def post (os : Os) (hist : List FsEvent) (r : Request) :
    Option (Option Dbmgr.Err × List FsEvent) :=
  match fixPath r.urlPath with
  | none => none
  | some npath =>
    let dir := filepathDir npath
    let hist1 := hist ++ [FsEvent.mkdirAll (filepathJoin [root, dir])]
    match r.body with
    | ReadResult.fail e => some (some e, hist1)
    | ReadResult.ok body =>
      let conv := if r.fmtJson then os.json2Yaml body else ReadResult.ok body
      match conv with
      | ReadResult.fail e => some (some e, hist1)
      | ReadResult.ok bs =>
        let f := filepathJoin [root, npath ++ ".yaml"]
        let x := os.writeFile hist1 f bs
        some (x, hist1 ++ [FsEvent.writeFile f bs x, FsEvent.pub "config" npath])

/-- Go `delete`: the returned error and the history after the call; `none` when `fixPath`
is out of range. -/
def delete (os : Os) (hist : List FsEvent) (r : Request) :
    Option (Option Dbmgr.Err × List FsEvent) :=
  match fixPath r.urlPath with
  | none => none
  | some npath =>
    let f := filepathJoin [root, npath]
    let x := os.remove hist f
    some (x, hist ++ [FsEvent.remove f x, FsEvent.pub "config" r.urlPath])

/-! ### A disk -/

/-- The files and the directories of a disk, by relative path. The working directory `.`
always exists. -/
structure Disk where
  files : Dbmgr.GoMap String
  dirs : List String
  deriving DecidableEq, Repr

/-- The directories above a path, outermost first: for `db/a/b`, `db` and `db/a`. -/
def ancestors (p : String) : List String :=
  let comps := splitSlash p.data
  (List.range (comps.length - 1)).map fun i => ⟨joinSlash (comps.take (i + 1))⟩

/-- The path is a file of the disk. -/
def isFile (d : Disk) (p : String) : Bool := (Dbmgr.mget d.files p).isSome

/-- The path is a directory of the disk. -/
def isDir (d : Disk) (p : String) : Bool := decide (p = ".") || d.dirs.contains p

/-- Something of the disk lies below the directory `p`. -/
def hasEntryBelow (d : Disk) (p : String) : Bool :=
  d.files.any (fun kv => (ancestors kv.1).contains p) ||
    d.dirs.any (fun q => (ancestors q).contains p)

/-- The effect of a recorded call on the disk. `os.MkdirAll` creates the missing
directories of the path from the outermost on and stops at a file. -/
def diskStep (d : Disk) : FsEvent → Disk
  | FsEvent.mkdirAll q =>
    let made := (ancestors q ++ [q]).takeWhile fun c => !isFile d c
    { d with dirs := d.dirs ++ made.filter fun c => !isDir d c }
  | FsEvent.writeFile p bytes none => { d with files := Dbmgr.mset d.files p bytes }
  | FsEvent.remove p none =>
    if isFile d p then { d with files := Dbmgr.mdel d.files p }
    else { d with dirs := d.dirs.filter fun q => decide (q ≠ p) }
  | _ => d

/-- The disk after the calls of a history, started empty. -/
def diskAfter (hist : List FsEvent) : Disk :=
  hist.foldl diskStep { files := [], dirs := [] }

/-- An operating system over a disk that starts empty and is changed by the recorded
calls only. No conversion is configured: requests with `fmt=json` get an error. -/
def diskOs : Os where
  readFile := fun hist p =>
    match Dbmgr.mget (diskAfter hist).files p with
    | some bytes => ReadResult.ok bytes
    | none =>
      if isDir (diskAfter hist) p then ReadResult.fail ("read " ++ p ++ ": is a directory")
      else if (ancestors p).any (isFile (diskAfter hist)) then
        ReadResult.fail ("open " ++ p ++ ": not a directory")
      else ReadResult.fail ("open " ++ p ++ ": no such file or directory")
  writeFile := fun hist p _ =>
    if isDir (diskAfter hist) p then some ("open " ++ p ++ ": is a directory")
    else if (ancestors p).any (isFile (diskAfter hist)) then
      some ("open " ++ p ++ ": not a directory")
    else if (ancestors p).all (isDir (diskAfter hist)) then none
    else some ("open " ++ p ++ ": no such file or directory")
  remove := fun hist p =>
    if isFile (diskAfter hist) p then none
    else if p = "." then some "remove .: invalid argument"
    else if isDir (diskAfter hist) p then
      if hasEntryBelow (diskAfter hist) p then
        some ("remove " ++ p ++ ": directory not empty")
      else none
    else if (ancestors p).any (isFile (diskAfter hist)) then
      some ("remove " ++ p ++ ": not a directory")
    else some ("remove " ++ p ++ ": no such file or directory")
  json2Yaml := fun _ => ReadResult.fail "conversion not configured"
  yaml2Json := fun _ => ReadResult.fail "conversion not configured"

end Config

namespace Dbmgr

theorem replaceAll_defaultTemplate (n : String) :
    stringsReplaceAll defaultTemplate placeholder n
      = "host=postgres user=postgres password=postgres dbname=" ++ n := by
  cases n with
  | mk cs =>
    apply String.ext
    simp [stringsReplaceAll, defaultTemplate, placeholder, replaceAllL, replaceScan,
      startsWith]


/-! ## Basic facts -/

theorem loadDsns_dbs (w : World) (s : State) : (loadDsns w s).2.dbs = s.dbs := by
  unfold loadDsns
  split
  · rfl
  · split <;> rfl

theorem loadDsns_trace (w : World) (s : State) :
    (loadDsns w s).2.trace = s.trace ++ loadEvents w s := by
  unfold loadDsns loadEvents
  split
  · simp
  · split <;> simp_all

theorem loadDsns_loaded (w : World) (s : State) (m : DsnMap) (h : s.dsns = some m) :
    loadDsns w s = (none, s) := by
  unfold loadDsns
  simp [h]

theorem loadEvents_quiet (w : World) (s : State) :
    ∀ ev ∈ loadEvents w s, (∃ r, ev = Event.cfgLoad r) ∨ ev = Event.listen := by
  unfold loadEvents
  split <;> simp

theorem replay_append (a b : List Event) (m : GoMap Handle) :
    replay (a ++ b) m = replay b (replay a m) := by
  induction a generalizing m with
  | nil => rfl
  | cons ev a ih =>
    cases ev <;> simp [replay, ih]

theorem DBN_zero (w : World) (n : String) (s : State) :
    DBN w 0 n s = (Outcome.outOfFuel, s) := rfl

theorem DBN_hit (w : World) (fuel : Nat) (n : String) (s : State) (h : Handle)
    (hc : loadDb n s = some h) :
    DBN w (fuel + 1) n s = (Outcome.ret (some h) (loadDsns w s).1, (loadDsns w s).2) := by
  have hc2 : loadDb n (loadDsns w s).2 = some h := by
    simpa [loadDb, loadDsns_dbs] using hc
  simp [DBN, hc2]


/-! ## Runs of `DBN` -/

theorem savesChecked_mono (p : Option Event) (l : List Event)
    (h : savesChecked none l = true) : savesChecked p l = true := by
  cases l with
  | nil => rfl
  | cons ev es =>
    cases ev <;> simp_all [savesChecked, isCheckedSave]

theorem savesChecked_append (p : Option Event) (a b : List Event)
    (ha : savesChecked p a = true) (hb : savesChecked none b = true) :
    savesChecked p (a ++ b) = true := by
  induction a generalizing p with
  | nil => simpa using savesChecked_mono p b hb
  | cons ev es ih =>
    simp only [savesChecked, Bool.and_eq_true, List.cons_append] at ha ⊢
    exact ⟨ha.1, ih _ ha.2⟩

theorem failLast_append (out : Outcome) (a b : List Event)
    (ha : ∀ ev ∈ a, isFailedRaw ev = false) (hb : failLast out b) :
    failLast out (a ++ b) := by
  induction a with
  | nil => simpa using hb
  | cons ev es ih =>
    have hev := ha ev (List.mem_cons_self _ _)
    have ih2 := ih (fun e he => ha e (List.mem_cons_of_mem _ he))
    cases ev with
    | raw h q r =>
      cases r with
      | none => simpa [failLast] using ih2
      | some e => simp [isFailedRaw] at hev
    | _ => simpa [failLast] using ih2

theorem noFail_of_failLast (out : Outcome) (l : List Event)
    (hout : ∀ x e, out ≠ Outcome.ret x (some e)) (h : failLast out l) :
    ∀ ev ∈ l, isFailedRaw ev = false := by
  induction l with
  | nil => simp
  | cons ev es ih =>
    intro e he
    cases ev with
    | raw hh q r =>
      cases r with
      | none =>
        simp only [failLast] at h
        rcases List.mem_cons.1 he with rfl | he2
        · rfl
        · exact ih h e he2
      | some e2 =>
        simp only [failLast] at h
        obtain ⟨_, x, hx⟩ := h
        exact absurd hx (hout x e2)
    | _ =>
      simp only [failLast] at h
      rcases List.mem_cons.1 he with rfl | he2
      · rfl
      · exact ih h e he2

theorem failLast_congr (out out2 : Outcome) (l : List Event)
    (hh : ∀ e, (∃ x, out = Outcome.ret x (some e)) → ∃ x, out2 = Outcome.ret x (some e))
    (h : failLast out l) : failLast out2 l := by
  induction l with
  | nil => trivial
  | cons ev es ih =>
    cases ev with
    | raw hh2 q r =>
      cases r with
      | none => simp only [failLast] at h ⊢; exact ih h
      | some e2 => simp only [failLast] at h ⊢; exact ⟨h.1, hh e2 h.2⟩
    | _ => simp only [failLast] at h ⊢; exact ih h

theorem Run_refl (n : String) (s : State) (out : Outcome) : Run n s (out, s) [] := by
  simp [Run, replay, savesChecked, failLast, execsCreate]

/-- Prepending an event that is no cache write, no failed liveness query and no foreign
statement. -/
theorem Run_step (n : String) (s : State) (ev : Event) (r : Outcome × State)
    (new : List Event)
    (hw : isCacheWrite ev = false) (hf : isFailedRaw ev = false)
    (hx : isExec ev = true →
      isExecOf (createStmt n) ev = true ∨ isExecOf (createStmt "postgres") ev = true)
    (h : Run n (logEv s ev) r new) : Run n s r (ev :: new) := by
  obtain ⟨ht, hd, hs, hl, he⟩ := h
  refine ⟨?_, ?_, ?_, ?_, ?_⟩
  · simpa [logEv] using ht
  · rw [hd]
    cases ev <;> simp_all [replay, logEv, isCacheWrite]
  · have := savesChecked_mono (some ev) new hs
    cases ev <;> simp_all [savesChecked, isCheckedSave, isCacheWrite]
  · have := failLast_append r.1 [ev] new (by simpa using hf) hl
    simpa using this
  · intro e he2 hex
    rcases List.mem_cons.1 he2 with rfl | h2
    · exact hx hex
    · exact he e h2 hex

theorem Run_load (w : World) (n : String) (s : State) (r : Outcome × State)
    (new : List Event) (h : Run n (loadDsns w s).2 r new) :
    Run n s r (loadEvents w s ++ new) := by
  obtain ⟨ht, hd, hs, hl, he⟩ := h
  have hq := loadEvents_quiet w s
  refine ⟨?_, ?_, ?_, ?_, ?_⟩
  · rw [ht, loadDsns_trace, List.append_assoc]
  · rw [hd, loadDsns_dbs, replay_append]
    congr 1
    unfold loadEvents
    split <;> simp [replay]
  · apply savesChecked_append _ _ _ _ hs
    unfold loadEvents
    split <;> simp [savesChecked, isCheckedSave]
  · apply failLast_append _ _ _ _ hl
    intro ev hev
    rcases hq ev hev with ⟨r2, rfl⟩ | rfl <;> rfl
  · intro ev hev hex
    rcases List.mem_append.1 hev with h1 | h2
    · rcases hq ev h1 with ⟨r2, rfl⟩ | rfl <;> simp [isExec] at hex
    · exact he ev h2 hex

theorem checkAndSave_run (w : World) (n : String) (h : Handle) (s : State) :
    ∃ new, Run n s (checkAndSave w n h s) new ∧ ∀ ev ∈ new, isExec ev = false := by
  unfold checkAndSave
  cases hr : w.rawSelect s.trace h "select 1+1" with
  | none =>
    refine ⟨[Event.raw h "select 1+1" none, Event.saveDb n h], ?_, ?_⟩
    · simp [Run, saveDb, logEv, replay, savesChecked, isCheckedSave, failLast, execsCreate,
        isExec]
    · simp [isExec]
  | some e =>
    refine ⟨[Event.raw h "select 1+1" (some e)], ?_, ?_⟩
    · simp [Run, logEv, replay, savesChecked, isCheckedSave, failLast, execsCreate, isExec]
    · simp [isExec]

theorem retryOpen_run (w : World) (n dsn : String) (s : State) :
    ∃ new, Run n s (retryOpen w n dsn s) new ∧ ∀ ev ∈ new, isExec ev = false := by
  unfold retryOpen
  cases hr : w.gormOpen s.trace dsn false with
  | ok h =>
    obtain ⟨new, hrun, hx⟩ := checkAndSave_run w n h
      (logEv s (Event.gormOpen dsn false (OpenResult.ok h)))
    refine ⟨Event.gormOpen dsn false (OpenResult.ok h) :: new, ?_, ?_⟩
    · exact Run_step n s _ _ new rfl rfl (by simp [isExec]) hrun
    · intro ev hev
      rcases List.mem_cons.1 hev with rfl | h2
      · rfl
      · exact hx ev h2
  | fail lo e =>
    refine ⟨[Event.gormOpen dsn false (OpenResult.fail lo e)], ?_, ?_⟩
    · exact Run_step n s _ _ [] rfl rfl (by simp [isExec]) (Run_refl n _ _)
    · simp [isExec]


theorem Run_seq (n : String) (s2 s3 : State) (o : Outcome) (r : Outcome × State)
    (new1 new2 : List Event)
    (h1 : Run "postgres" s2 (o, s3) new1) (hno : ∀ x e, o ≠ Outcome.ret x (some e))
    (h2 : Run n s3 r new2) : Run n s2 r (new1 ++ new2) := by
  obtain ⟨ht1, hd1, hs1, hl1, he1⟩ := h1
  obtain ⟨ht2, hd2, hs2, hl2, he2⟩ := h2
  simp only at ht1 hd1 hl1
  refine ⟨?_, ?_, ?_, ?_, ?_⟩
  · rw [ht2, ht1, List.append_assoc]
  · rw [hd2, hd1, replay_append]
  · exact savesChecked_append _ _ _ hs1 hs2
  · exact failLast_append _ _ _ (noFail_of_failLast o new1 hno hl1) hl2
  · intro ev hev hex
    rcases List.mem_append.1 hev with h | h
    · rcases he1 ev h hex with h3 | h3 <;> exact Or.inr h3
    · exact he2 ev h hex

theorem Run_weaken (n : String) (s s3 : State) (o o2 : Outcome) (new : List Event)
    (hh : ∀ e, (∃ x, o = Outcome.ret x (some e)) → ∃ x, o2 = Outcome.ret x (some e))
    (h : Run "postgres" s (o, s3) new) : Run n s (o2, s3) new := by
  obtain ⟨ht, hd, hs, hl, he⟩ := h
  refine ⟨ht, hd, hs, failLast_congr o o2 new hh hl, ?_⟩
  intro ev hev hex
  rcases he ev hev hex with h3 | h3 <;> exact Or.inr h3

theorem Run_open (n : String) (s : State) (dsn : String) (b : Bool) (x : OpenResult)
    (r : Outcome × State) (new : List Event)
    (h : Run n (logEv s (Event.gormOpen dsn b x)) r new) :
    Run n s r (Event.gormOpen dsn b x :: new) :=
  Run_step n s _ r new rfl rfl (by simp [isExec]) h

theorem Run_create (n : String) (s : State) (hm : Handle) (x : Option Err)
    (r : Outcome × State) (new : List Event)
    (h : Run n (logEv s (Event.exec hm ("create database " ++ n ++ ";") x)) r new) :
    Run n s r (Event.exec hm ("create database " ++ n ++ ";") x :: new) :=
  Run_step n s _ r new rfl rfl (by simp [isExecOf, createStmt]) h

/-- One more level of budget: a run of `DBN` satisfies `Run` when the nested runs do. On
a cache hit nothing but the events of `loadDsns` is appended; on a miss these are followed
by the first `gorm.Open` on the resolved connection string. -/
theorem DBN_succ_run (w : World) (fuel : Nat)
    (ih : ∀ (n : String) (s : State), ∃ new, Run n s (DBN w fuel n s) new)
    (n : String) (s : State) :
    ∃ new, Run n s (DBN w (fuel + 1) n s) new ∧
      (∀ h, loadDb n s = some h → new = loadEvents w s) ∧
      (loadDb n s = none → ∃ rest, new = loadEvents w s ++
        Event.gormOpen (resolveDsn (loadDsns w s).2.dsns n) true
          (w.gormOpen (loadDsns w s).2.trace (resolveDsn (loadDsns w s).2.dsns n) true)
          :: rest) := by
  have hl : loadDb n (loadDsns w s).2 = loadDb n s := by simp [loadDb, loadDsns_dbs]
  unfold DBN
  simp only []
  split
  · rename_i h hhit
    refine ⟨_, Run_load w n s _ [] (Run_refl n _ _), ?_, ?_⟩
    · intro _ _; simp
    · intro hmiss; rw [hl, hmiss] at hhit; cases hhit
  · rename_i hmiss0
    have hhitF : ∀ h, loadDb n s = some h → False := by
      intro h hh; rw [hl, hh] at hmiss0; cases hmiss0
    split
    · rename_i h hopen
      obtain ⟨new, hrun, _⟩ := checkAndSave_run w n h
        (logEv (loadDsns w s).2 (Event.gormOpen (resolveDsn (loadDsns w s).2.dsns n) true
          (OpenResult.ok h)))
      rw [hopen] at *
      exact ⟨_, Run_load w n s _ _ (Run_open n _ _ _ _ _ new hrun),
        fun h hh => (hhitF h hh).elim, fun _ => ⟨_, rfl⟩⟩
    · rename_i lo e hopen
      rw [hopen]
      split
      · obtain ⟨new1, hrun1⟩ := ih "postgres"
          (logEv (loadDsns w s).2 (Event.gormOpen (resolveDsn (loadDsns w s).2.dsns n) true
            (OpenResult.fail lo e)))
        split
        · rename_i db s3 hnest
          rw [hnest] at hrun1
          split
          · refine ⟨_, Run_load w n s _ _ (Run_open n _ _ _ _ _ new1
              (Run_weaken n _ _ _ _ new1 ?_ hrun1)),
              fun h hh => (hhitF h hh).elim, fun _ => ⟨_, rfl⟩⟩
            intro e2 ⟨x, hx⟩
            cases hx
          · rename_i hm
            cases hx : w.exec s3.trace hm ("create database " ++ n ++ ";") with
            | some e2 =>
              simp only []
              have hstep := Run_create n s3 hm (some e2) (Outcome.ret none (some e2), _) []
                (Run_refl n _ _)
              have hseq := Run_seq n _ s3 _ _ new1 _ hrun1 (by simp) hstep
              exact ⟨_, Run_load w n s _ _ (Run_open n _ _ _ _ _ _ hseq),
                fun h hh => (hhitF h hh).elim, fun _ => ⟨_, rfl⟩⟩
            | none =>
              simp only []
              obtain ⟨new2, hrun2, _⟩ := retryOpen_run w n
                (resolveDsn (loadDsns w s).2.dsns n)
                (logEv s3 (Event.exec hm ("create database " ++ n ++ ";") none))
              have hstep := Run_create n s3 hm none _ new2 hrun2
              have hseq := Run_seq n _ s3 _ _ new1 _ hrun1 (by simp) hstep
              exact ⟨_, Run_load w n s _ _ (Run_open n _ _ _ _ _ _ hseq),
                fun h hh => (hhitF h hh).elim, fun _ => ⟨_, rfl⟩⟩
        · rename_i x e1 s3 hnest
          rw [hnest] at hrun1
          refine ⟨_, Run_load w n s _ _ (Run_open n _ _ _ _ _ new1
            (Run_weaken n _ _ _ _ new1 ?_ hrun1)),
            fun h hh => (hhitF h hh).elim, fun _ => ⟨_, rfl⟩⟩
          intro e2 ⟨y, hy⟩
          cases hy
          exact ⟨_, rfl⟩
        · rename_i o s3 hne1 hne2 hnest
          rw [hnest] at hrun1
          exact ⟨_, Run_load w n s _ _ (Run_open n _ _ _ _ _ new1
            (Run_weaken n _ _ _ _ new1 (fun _ h => h) hrun1)),
            fun h hh => (hhitF h hh).elim, fun _ => ⟨_, rfl⟩⟩
      · obtain ⟨new2, hrun2, _⟩ := retryOpen_run w n (resolveDsn (loadDsns w s).2.dsns n)
          (logEv (loadDsns w s).2 (Event.gormOpen (resolveDsn (loadDsns w s).2.dsns n) true
            (OpenResult.fail lo e)))
        exact ⟨_, Run_load w n s _ _ (Run_open n _ _ _ _ _ new2 hrun2),
          fun h hh => (hhitF h hh).elim, fun _ => ⟨_, rfl⟩⟩

/-- Every run of `DBN`, whatever the world answers and whatever the budget, appends events
that satisfy `Run`. -/
theorem DBN_run (w : World) : ∀ (fuel : Nat) (n : String) (s : State),
    ∃ new, Run n s (DBN w fuel n s) new := by
  intro fuel
  induction fuel with
  | zero => intro n s; exact ⟨[], Run_refl n s _⟩
  | succ fuel ih =>
    intro n s
    obtain ⟨new, h, _⟩ := DBN_succ_run w fuel ih n s
    exact ⟨new, h⟩

/-! ## Go maps: reading after writing -/

theorem mdel_cons_eq {β : Type} (m : GoMap β) (n : String) (v : β) :
    mdel ((n, v) :: m) n = mdel m n := by
  simp [mdel]

theorem mdel_cons_ne {β : Type} (m : GoMap β) (n k : String) (v : β) (h : k ≠ n) :
    mdel ((k, v) :: m) n = (k, v) :: mdel m n := by
  simp [mdel, h]

theorem mget_mdel_self {β : Type} (m : GoMap β) (n : String) : mget (mdel m n) n = none := by
  induction m with
  | nil => rfl
  | cons kv m ih =>
    obtain ⟨k, v⟩ := kv
    by_cases hk : k = n
    · subst hk
      rw [mdel_cons_eq]; exact ih
    · rw [mdel_cons_ne m n k v hk]
      simpa [mget, hk] using ih

theorem mget_mdel_ne {β : Type} (m : GoMap β) (n k : String) (h : k ≠ n) :
    mget (mdel m n) k = mget m k := by
  induction m with
  | nil => rfl
  | cons kv m ih =>
    obtain ⟨k2, v⟩ := kv
    by_cases hk : k2 = n
    · subst hk
      have hne : k2 ≠ k := fun h2 => h h2.symm
      rw [mdel_cons_eq]
      simpa [mget, hne] using ih
    · rw [mdel_cons_ne m n k2 v hk]
      by_cases hk2 : k2 = k
      · simp [mget, hk2]
      · simpa [mget, hk2] using ih

theorem mget_append {β : Type} (a b : GoMap β) (k : String) :
    mget (a ++ b) k = match mget a k with
      | some v => some v
      | none => mget b k := by
  induction a with
  | nil => rfl
  | cons kv a ih =>
    obtain ⟨k2, v⟩ := kv
    by_cases hk : k2 = k
    · simp [mget, hk]
    · simpa [mget, hk] using ih

theorem mget_mset_self {β : Type} (m : GoMap β) (n : String) (v : β) :
    mget (mset m n v) n = some v := by
  simp [mset, mget_append, mget_mdel_self, mget]

theorem mget_mset_ne {β : Type} (m : GoMap β) (n k : String) (v : β) (h : k ≠ n) :
    mget (mset m n v) k = mget m k := by
  have h2 : n ≠ k := fun h3 => h h3.symm
  rw [mset, mget_append, mget_mdel_ne m n k h]
  cases mget m k <;> simp [mget, h2]


/-! ## Connection-string resolution -/

/-- C1: for every DSN mapping `m` (and for the nil mapping, which reads as the empty one)
and every logical name `n`, the connection string `DBN` resolves is the one the
specification describes: `m[n]` unchanged when `n` is a key, else `m["default"]` with every
`${DBNAME}` replaced by `n`, else the built-in default template with `${DBNAME}` replaced by
`n`. The resolver is a total function: it yields a string for every `m` and `n`. -/
theorem resolveDsn_refines_resolveSpec (m : DsnMap) (n : String) :
    resolveDsn (some m) n = resolveSpec m n ∧ resolveDsn none n = resolveSpec [] n ∧
      resolveSpec [] n = stringsReplaceAll defaultTemplate placeholder n := by
  refine ⟨?_, ?_, ?_⟩
  · unfold resolveDsn resolveSpec dsnLookup
    simp only []
    cases mget m n with
    | some v => rfl
    | none =>
      cases mget m "default" with
      | some t => rfl
      | none => exact (replaceAll_defaultTemplate n).symm
  · unfold resolveDsn resolveSpec dsnLookup
    simpa [mget] using (replaceAll_defaultTemplate n).symm
  · simp [resolveSpec, mget]

/-! ## Liveness before caching -/

theorem savesChecked_split (p : Option Event) (pre post : List Event) (m : String)
    (h : Handle) (hs : savesChecked p (pre ++ Event.saveDb m h :: post) = true) :
    (pre = [] ∧ p = some (Event.raw h "select 1+1" none)) ∨
      ∃ pre2, pre = pre2 ++ [Event.raw h "select 1+1" none] := by
  induction pre generalizing p with
  | nil =>
    left
    simp only [List.nil_append, savesChecked, isCheckedSave, Bool.and_eq_true,
      decide_eq_true_eq] at hs
    exact ⟨rfl, hs.1⟩
  | cons ev pre ih =>
    right
    simp only [List.cons_append, savesChecked, Bool.and_eq_true] at hs
    rcases ih (some ev) hs.2 with ⟨h1, h2⟩ | ⟨pre2, h2⟩
    · refine ⟨[], ?_⟩
      cases h2
      simp [h1]
    · exact ⟨ev :: pre2, by simp [h2]⟩

theorem failLast_split (out : Outcome) (pre post : List Event) (h : Handle) (q : String)
    (e : Err) (hf : failLast out (pre ++ Event.raw h q (some e) :: post)) :
    post = [] ∧ ∃ x, out = Outcome.ret x (some e) := by
  induction pre with
  | nil => simpa [failLast] using hf
  | cons ev pre ih =>
    cases ev with
    | raw h2 q2 r =>
      cases r with
      | none => exact ih (by simpa [failLast] using hf)
      | some e2 =>
        simp only [List.cons_append, failLast] at hf
        exact absurd hf.1 (by simp)
    | _ => exact ih (by simpa [failLast] using hf)

/-- C6: in every run of `DBN` (any world, any name, any state, any recursion budget) the
cache changes only through the `saveDb` calls recorded in the appended events, and every
`saveDb n h` directly follows the liveness query `select 1+1` on `h` answered without
error. When a liveness query is answered with an error, it is the last event of the run:
`DBN` returns that error, no `saveDb` follows, and the final cache is the cache as it was
before the query. -/
theorem DBN_saves_only_checked_handles (w : World) (fuel : Nat) (n : String) (s : State) :
    ∃ new, (DBN w fuel n s).2.trace = s.trace ++ new ∧
      (DBN w fuel n s).2.dbs = replay new s.dbs ∧
      (∀ pre post m h, new = pre ++ Event.saveDb m h :: post →
        ∃ pre2, pre = pre2 ++ [Event.raw h "select 1+1" none]) ∧
      (∀ pre post h q e, new = pre ++ Event.raw h q (some e) :: post →
        post = [] ∧ (∃ x, (DBN w fuel n s).1 = Outcome.ret x (some e)) ∧
        (DBN w fuel n s).2.dbs = replay pre s.dbs) := by
  obtain ⟨new, ht, hd, hs, hl, _⟩ := DBN_run w fuel n s
  refine ⟨new, ht, hd, ?_, ?_⟩
  · intro pre post m h hnew
    rw [hnew] at hs
    rcases savesChecked_split none pre post m h hs with ⟨_, h2⟩ | h2
    · cases h2
    · exact h2
  · intro pre post h q e hnew
    rw [hnew] at hl
    obtain ⟨hpost, hout⟩ := failLast_split _ pre post h q e hl
    refine ⟨hpost, hout, ?_⟩
    rw [hd, hnew, hpost, replay_append]
    rfl


/-! ## Provisioning a missing database -/

theorem createStmt_inj (a b : String) (h : createStmt a = createStmt b) : a = b := by
  unfold createStmt at h
  have h2 := congrArg String.data h
  simp only [String.data_append, List.append_assoc] at h2
  have h3 := List.append_cancel_left h2
  have h4 := List.append_cancel_right h3
  exact String.ext h4

theorem isExec_of_isExecOf (stmt : String) (ev : Event) (h : isExecOf stmt ev = true) :
    isExec ev = true := by
  cases ev <;> simp_all [isExecOf, isExec]

theorem isExecOf_unique (a b : String) (ev : Event) (ha : isExecOf a ev = true)
    (hb : isExecOf b ev = true) : a = b := by
  cases ev <;> simp_all [isExecOf]

theorem filter_create_nested (n : String) (new1 : List Event) (hn : n ≠ "postgres")
    (h : execsCreate "postgres" new1) : new1.filter (isExecOf (createStmt n)) = [] := by
  rw [List.filter_eq_nil_iff]
  intro ev hev hx
  have h2 := h ev hev (isExec_of_isExecOf _ ev hx)
  have h3 : isExecOf (createStmt "postgres") ev = true := by
    rcases h2 with h2 | h2 <;> exact h2
  exact hn (createStmt_inj _ _ (isExecOf_unique _ _ ev hx h3))

theorem filter_create_load (w : World) (s : State) (stmt : String) :
    (loadEvents w s).filter (isExecOf stmt) = [] := by
  unfold loadEvents
  split <;> simp [isExecOf]

/-- C3 (counterexample): the name is "postgres" itself. It is not cached, its first open
fails with a text that contains "database" and "does not exist", `DBMaster()` returns the
administrative handle 2 with a nil error, the create statement, the retried open and the
liveness query succeed, and `DBN("postgres")` returns handle 3 and caches it. Yet the call
has issued two `create database postgres;`, one on handle 1 inside the nested `DBMaster()`
and one on handle 2, and has retried the open twice. -/
theorem DBN_postgres_creates_twice :
    loadDb "postgres" initState = none ∧
      selfWorld.gormOpen (loadDsns selfWorld initState).2.trace
        (resolveDsn (loadDsns selfWorld initState).2.dsns "postgres") true
        = OpenResult.fail (some 9)
            "FATAL: database \"postgres\" does not exist (SQLSTATE 3D000)" ∧
      missingDb "FATAL: database \"postgres\" does not exist (SQLSTATE 3D000)" = true ∧
      (DBMaster selfWorld 2 (logEv (loadDsns selfWorld initState).2
        (Event.gormOpen (resolveDsn (loadDsns selfWorld initState).2.dsns "postgres") true
          (OpenResult.fail (some 9)
            "FATAL: database \"postgres\" does not exist (SQLSTATE 3D000)")))).1
        = Outcome.ret (some 2) none ∧
      (DBN selfWorld 3 "postgres" initState).1 = Outcome.ret (some 3) none ∧
      loadDb "postgres" (DBN selfWorld 3 "postgres" initState).2 = some 3 ∧
      (DBN selfWorld 3 "postgres" initState).2.trace.filter (isExecOf (createStmt "postgres"))
        = [Event.exec 1 "create database postgres;" none,
            Event.exec 2 "create database postgres;" none] ∧
      (DBN selfWorld 3 "postgres" initState).2.trace.filter isRetryOpen
        = [Event.gormOpen "host=postgres user=postgres password=postgres dbname=postgres"
              false (OpenResult.ok 2),
            Event.gormOpen "host=postgres user=postgres password=postgres dbname=postgres"
              false (OpenResult.ok 3)] := by
  decide

/-- The nested `DBMaster()` may retry as well: when the first open of the administrative
database is refused and its retry succeeds, one `DBN("orders")` performs two opens without
the relaxed option, the one of `DBMaster()` and its own. -/
theorem DBN_nested_retry_example :
    (DBN adminRetryWorld 2 "orders" initState).1 = Outcome.ret (some 2) none ∧
      (DBN adminRetryWorld 2 "orders" initState).2.trace.filter isRetryOpen
        = [Event.gormOpen "host=db user=u dbname=postgres" false (OpenResult.ok 1),
            Event.gormOpen "host=db user=u dbname=orders" false (OpenResult.ok 2)] := by
  decide

/-- C3 (amended): for every uncached name `n` whose first `gorm.Open` fails with an error
text that contains both "database" and "does not exist": if `DBMaster()` returns the
administrative handle `hm` with a nil error, the create statement on `hm` succeeds, the
retried open returns `h` and the liveness query on `h` succeeds, then `DBN(n)` returns `h`
with a nil error and `h` is cached under `n`. The events of the call are its first open,
the events `nested` of `DBMaster()`, and then exactly these steps of its own: one
`create database n;` on `hm`, one `gorm.Open` without the relaxed option, the liveness
query, and `saveDb(n, h)`. What `DBMaster()` does in between is not bounded: it may open,
retry and create on its own. For `n` other than "postgres" the create statement on `hm` is
the only `create database n;` among all events of the call. -/
theorem DBN_provisions_missing_database (w : World) (fuel : Nat) (n : String)
    (s s3 : State) (lo : Option Handle) (e : Err) (hm h : Handle)
    (hmiss : loadDb n s = none)
    (hopen : w.gormOpen (loadDsns w s).2.trace (resolveDsn (loadDsns w s).2.dsns n) true
      = OpenResult.fail lo e)
    (hdb : stringsContains e "database" = true)
    (hdne : stringsContains e "does not exist" = true)
    (hadmin : DBMaster w fuel (logEv (loadDsns w s).2
        (Event.gormOpen (resolveDsn (loadDsns w s).2.dsns n) true (OpenResult.fail lo e)))
      = (Outcome.ret (some hm) none, s3))
    (hcreate : w.exec s3.trace hm (createStmt n) = none)
    (hretry : w.gormOpen (s3.trace ++ [Event.exec hm (createStmt n) none])
      (resolveDsn (loadDsns w s).2.dsns n) false = OpenResult.ok h)
    (hlive : w.rawSelect (s3.trace ++ [Event.exec hm (createStmt n) none,
        Event.gormOpen (resolveDsn (loadDsns w s).2.dsns n) false (OpenResult.ok h)])
      h "select 1+1" = none) :
    ∃ s2 new, DBN w (fuel + 1) n s = (Outcome.ret (some h) none, s2) ∧
      s2.trace = s3.trace ++ [Event.exec hm (createStmt n) none,
        Event.gormOpen (resolveDsn (loadDsns w s).2.dsns n) false (OpenResult.ok h),
        Event.raw h "select 1+1" none, Event.saveDb n h] ∧
      s2.dbs = mset s3.dbs n h ∧ loadDb n s2 = some h ∧
      s2.trace = s.trace ++ new ∧
      (∃ nested, s3.trace = s.trace ++ loadEvents w s ++
          Event.gormOpen (resolveDsn (loadDsns w s).2.dsns n) true (OpenResult.fail lo e)
            :: nested ∧
        new = loadEvents w s ++
          Event.gormOpen (resolveDsn (loadDsns w s).2.dsns n) true (OpenResult.fail lo e) ::
            nested ++ [Event.exec hm (createStmt n) none,
              Event.gormOpen (resolveDsn (loadDsns w s).2.dsns n) false (OpenResult.ok h),
              Event.raw h "select 1+1" none, Event.saveDb n h]) ∧
      (n ≠ "postgres" →
        new.filter (isExecOf (createStmt n)) = [Event.exec hm (createStmt n) none]) := by
  have hl : loadDb n (loadDsns w s).2 = none := by simpa [loadDb, loadDsns_dbs] using hmiss
  have hmd : missingDb e = true := by simp [missingDb, hdb, hdne]
  obtain ⟨new1, ht1, _, _, _, hx1⟩ := DBN_run w fuel "postgres" (logEv (loadDsns w s).2
    (Event.gormOpen (resolveDsn (loadDsns w s).2.dsns n) true (OpenResult.fail lo e)))
  unfold DBMaster at hadmin
  rw [hadmin] at ht1
  simp only [logEv, loadDsns_trace] at ht1
  unfold createStmt at hcreate hretry hlive
  have hL : ∀ (a : List Event) (x y : Event), a ++ [x, y] = a ++ [x] ++ [y] := by simp
  refine ⟨State.mk s3.dsns (mset s3.dbs n h)
      (s3.trace ++ [Event.exec hm (createStmt n) none,
        Event.gormOpen (resolveDsn (loadDsns w s).2.dsns n) false (OpenResult.ok h),
        Event.raw h "select 1+1" none, Event.saveDb n h]),
    loadEvents w s ++ [Event.gormOpen (resolveDsn (loadDsns w s).2.dsns n) true
      (OpenResult.fail lo e)] ++ new1 ++ [Event.exec hm (createStmt n) none,
        Event.gormOpen (resolveDsn (loadDsns w s).2.dsns n) false (OpenResult.ok h),
        Event.raw h "select 1+1" none, Event.saveDb n h], ?_, ?_, ?_, ?_, ?_, ?_, ?_⟩
  · unfold DBN
    simp only [hl, hopen, hmd, if_true, hadmin, hcreate]
    have e1 : (logEv s3 (Event.exec hm ("create database " ++ n ++ ";") none)).trace
        = s3.trace ++ [Event.exec hm ("create database " ++ n ++ ";") none] := rfl
    simp only [retryOpen, e1, hretry]
    have e2 : (logEv (logEv s3 (Event.exec hm ("create database " ++ n ++ ";") none))
        (Event.gormOpen (resolveDsn (loadDsns w s).2.dsns n) false (OpenResult.ok h))).trace
        = s3.trace ++ [Event.exec hm ("create database " ++ n ++ ";") none,
          Event.gormOpen (resolveDsn (loadDsns w s).2.dsns n) false (OpenResult.ok h)] := by
      simp [logEv]
    simp only [checkAndSave, e2, hlive]
    simp [saveDb, logEv, createStmt]
  · rfl
  · rfl
  · simp [loadDb, mget_mset_self]
  · simp [ht1]
  · exact ⟨new1, by simp [ht1], by simp⟩
  · intro hn
    simp [List.filter_append, filter_create_load, filter_create_nested n new1 hn hx1,
      isExecOf, List.filter]


/-- The scenario of the specification: "orders" is resolved from the `"default"` template, its
database is created through the administrative handle 1, and handle 2 is returned and
cached. -/
theorem DBN_provisions_missing_database_witness :
    (DBN ordersWorld 2 "orders" initState).1 = Outcome.ret (some 2) none ∧
      loadDb "orders" (DBN ordersWorld 2 "orders" initState).2 = some 2 ∧
      (DBN ordersWorld 2 "orders" initState).2.trace =
        [Event.cfgLoad (LoadResult.ok (some [("default", "host=db user=u dbname=${DBNAME}")])),
          Event.listen,
          Event.gormOpen "host=db user=u dbname=orders" true
            (OpenResult.fail (some 9)
              "FATAL: database \"orders\" does not exist (SQLSTATE 3D000)"),
          Event.gormOpen "host=db user=u dbname=postgres" true (OpenResult.ok 1),
          Event.raw 1 "select 1+1" none,
          Event.saveDb "postgres" 1,
          Event.exec 1 "create database orders;" none,
          Event.gormOpen "host=db user=u dbname=orders" false (OpenResult.ok 2),
          Event.raw 2 "select 1+1" none,
          Event.saveDb "orders" 2] := by
  obtain ⟨s2, new, h1, h2, _, h4, _, _, _⟩ :=
    DBN_provisions_missing_database ordersWorld 1 "orders" initState
      (DBMaster ordersWorld 1 (logEv (loadDsns ordersWorld initState).2
        (Event.gormOpen (resolveDsn (loadDsns ordersWorld initState).2.dsns "orders") true
          (OpenResult.fail (some 9)
            "FATAL: database \"orders\" does not exist (SQLSTATE 3D000)")))).2
      (some 9) "FATAL: database \"orders\" does not exist (SQLSTATE 3D000)" 1 2
      (by decide) (by decide) (by decide) (by decide) (by decide) (by decide) (by decide)
      (by decide)
  rw [h1]
  refine ⟨rfl, h4, ?_⟩
  rw [h2]
  decide


/-! ## Cache hits -/

/-- On a cache hit `DBN` returns the cached handle, appends nothing but the events of
`loadDsns`, and leaves the cache as it is; the error it returns is the one `loadDsns` left
in the named result, which is nil whenever `dsns` is already set. -/
theorem DBN_cached (w : World) (fuel : Nat) (n : String) (s : State) (h : Handle)
    (hc : loadDb n s = some h) :
    (DBN w (fuel + 1) n s).1 = Outcome.ret (some h) (loadDsns w s).1 ∧
      (DBN w (fuel + 1) n s).2.dbs = s.dbs ∧
      (DBN w (fuel + 1) n s).2.trace = s.trace ++ loadEvents w s ∧
      (∀ m, s.dsns = some m → DBN w (fuel + 1) n s = (Outcome.ret (some h) none, s)) := by
  rw [DBN_hit w fuel n s h hc]
  refine ⟨rfl, loadDsns_dbs w s, loadDsns_trace w s, ?_⟩
  intro m hm
  rw [loadDsns_loaded w s m hm]

/-- C2 (failing input): a cache hit that returns a non-nil error. From the initial
registry, in a world whose first configuration load leaves `dsns` nil without error and
whose later loads fail, the first `DBN("a")` opens and caches handle 7 and leaves `dsns`
nil; the second `DBN("a")` hits the cache and returns handle 7 together with the error of
the failed load. -/
theorem DBN_cache_hit_returns_load_error :
    (DBN staleWorld 1 "a" initState).1 = Outcome.ret (some 7) none ∧
      loadDb "a" (DBN staleWorld 1 "a" initState).2 = some 7 ∧
      (DBN staleWorld 1 "a" initState).2.dsns = none ∧
      (DBN staleWorld 1 "a" (DBN staleWorld 1 "a" initState).2).1
        = Outcome.ret (some 7) (some "config: source unavailable") := by
  decide

/-- A second way into the same state: the first load succeeds, "a" is cached, and the
listener then decodes the payload `null`, which sets `dsns` back to nil. The next
`DBN("a")` loads again, the load fails, and the cached handle is returned together with
that error. -/
theorem DBN_cache_hit_after_null_payload :
    (DBN nullWorld 1 "a" initState).1 = Outcome.ret (some 7) none ∧
      loadDb "a" (listenerStep nullWorld "null" (DBN nullWorld 1 "a" initState).2) = some 7 ∧
      (listenerStep nullWorld "null" (DBN nullWorld 1 "a" initState).2).dsns = none ∧
      (DBN nullWorld 1 "a" (listenerStep nullWorld "null" (DBN nullWorld 1 "a" initState).2)).1
        = Outcome.ret (some 7) (some "config: source unavailable") := by
  decide

/-- C5 (failing input): both opens of "a" fail. `gorm.Open` returns its non-nil handle
together with the error, the failed retry leaves that handle in the named result, and the
bare `return` of line 129 hands it out: `DBN("a")` returns the non-nil handle 9 together
with the non-nil error of the retry. Nothing is cached and no liveness query is made. -/
theorem DBN_returns_handle_with_error :
    DBN refusingWorld 1 "a" initState =
      (Outcome.ret (some 9) (some "dial tcp: i/o timeout"),
        { dsns := some [], dbs := [],
          trace := [Event.cfgLoad (LoadResult.ok (some [])), Event.listen,
            Event.gormOpen "host=postgres user=postgres password=postgres dbname=a" true
              (OpenResult.fail (some 8) "dial tcp: connection refused"),
            Event.gormOpen "host=postgres user=postgres password=postgres dbname=a" false
              (OpenResult.fail (some 9) "dial tcp: i/o timeout")] }) := by
  decide

/-! ## A first open that fails for another reason -/

/-- C4 (counterexample): "a" is not cached, the first open fails with an error that does
not name a missing database, and yet `DBN("a")` returns handle 5 with a nil error and
caches it: the open is retried. -/
theorem DBN_first_open_error_not_returned :
    loadDb "a" initState = none ∧
      flakyWorld.gormOpen (loadDsns flakyWorld initState).2.trace
        (resolveDsn (loadDsns flakyWorld initState).2.dsns "a") true
        = OpenResult.fail (some 8) "dial tcp: connection refused" ∧
      missingDb "dial tcp: connection refused" = false ∧
      (DBN flakyWorld 1 "a" initState).1 = Outcome.ret (some 5) none ∧
      loadDb "a" (DBN flakyWorld 1 "a" initState).2 = some 5 := by
  decide

/-- C4 (amended): for every uncached name `n` whose first open fails with an error that
does not name a missing database, `DBN(n)` executes no statement and retries the open once
without the relaxed option. If the retry fails, `DBN(n)` returns the error of the retry and
the cache is unchanged, so no entry for `n` is inserted. If the retry succeeds, the
liveness query decides: on an error that error is returned with the cache unchanged, and
otherwise the handle of the retry is cached under `n` and returned. -/
theorem DBN_other_open_failure_retries (w : World) (fuel : Nat) (n : String) (s : State)
    (lo : Option Handle) (e : Err)
    (hmiss : loadDb n s = none)
    (hopen : w.gormOpen (loadDsns w s).2.trace (resolveDsn (loadDsns w s).2.dsns n) true
      = OpenResult.fail lo e)
    (hother : missingDb e = false) :
    (∀ lo2 e2,
      w.gormOpen (s.trace ++ loadEvents w s ++
          [Event.gormOpen (resolveDsn (loadDsns w s).2.dsns n) true (OpenResult.fail lo e)])
        (resolveDsn (loadDsns w s).2.dsns n) false = OpenResult.fail lo2 e2 →
      DBN w (fuel + 1) n s = (Outcome.ret lo2 (some e2),
        State.mk (loadDsns w s).2.dsns s.dbs (s.trace ++ loadEvents w s ++
          [Event.gormOpen (resolveDsn (loadDsns w s).2.dsns n) true (OpenResult.fail lo e),
            Event.gormOpen (resolveDsn (loadDsns w s).2.dsns n) false
              (OpenResult.fail lo2 e2)])) ∧
      loadDb n (DBN w (fuel + 1) n s).2 = none) ∧
    (∀ h2,
      w.gormOpen (s.trace ++ loadEvents w s ++
          [Event.gormOpen (resolveDsn (loadDsns w s).2.dsns n) true (OpenResult.fail lo e)])
        (resolveDsn (loadDsns w s).2.dsns n) false = OpenResult.ok h2 →
      (∀ e3, w.rawSelect (s.trace ++ loadEvents w s ++
          [Event.gormOpen (resolveDsn (loadDsns w s).2.dsns n) true (OpenResult.fail lo e),
            Event.gormOpen (resolveDsn (loadDsns w s).2.dsns n) false (OpenResult.ok h2)])
          h2 "select 1+1" = some e3 →
        DBN w (fuel + 1) n s = (Outcome.ret (some h2) (some e3),
          State.mk (loadDsns w s).2.dsns s.dbs (s.trace ++ loadEvents w s ++
            [Event.gormOpen (resolveDsn (loadDsns w s).2.dsns n) true (OpenResult.fail lo e),
              Event.gormOpen (resolveDsn (loadDsns w s).2.dsns n) false (OpenResult.ok h2),
              Event.raw h2 "select 1+1" (some e3)]))) ∧
      (w.rawSelect (s.trace ++ loadEvents w s ++
          [Event.gormOpen (resolveDsn (loadDsns w s).2.dsns n) true (OpenResult.fail lo e),
            Event.gormOpen (resolveDsn (loadDsns w s).2.dsns n) false (OpenResult.ok h2)])
          h2 "select 1+1" = none →
        DBN w (fuel + 1) n s = (Outcome.ret (some h2) none,
          State.mk (loadDsns w s).2.dsns (mset s.dbs n h2) (s.trace ++ loadEvents w s ++
            [Event.gormOpen (resolveDsn (loadDsns w s).2.dsns n) true (OpenResult.fail lo e),
              Event.gormOpen (resolveDsn (loadDsns w s).2.dsns n) false (OpenResult.ok h2),
              Event.raw h2 "select 1+1" none, Event.saveDb n h2])))) := by
  have hl : loadDb n (loadDsns w s).2 = none := by simpa [loadDb, loadDsns_dbs] using hmiss
  have hD : DBN w (fuel + 1) n s = retryOpen w n (resolveDsn (loadDsns w s).2.dsns n)
      (logEv (loadDsns w s).2 (Event.gormOpen (resolveDsn (loadDsns w s).2.dsns n) true
        (OpenResult.fail lo e))) := by
    unfold DBN
    simp only [hl, hopen, hother]
    simp
  have ht : (logEv (loadDsns w s).2 (Event.gormOpen (resolveDsn (loadDsns w s).2.dsns n) true
      (OpenResult.fail lo e))).trace = s.trace ++ loadEvents w s ++
        [Event.gormOpen (resolveDsn (loadDsns w s).2.dsns n) true (OpenResult.fail lo e)] := by
    simp [logEv, loadDsns_trace]
  refine ⟨?_, ?_⟩
  · intro lo2 e2 h2
    have : DBN w (fuel + 1) n s = (Outcome.ret lo2 (some e2),
        State.mk (loadDsns w s).2.dsns s.dbs (s.trace ++ loadEvents w s ++
          [Event.gormOpen (resolveDsn (loadDsns w s).2.dsns n) true (OpenResult.fail lo e),
            Event.gormOpen (resolveDsn (loadDsns w s).2.dsns n) false
              (OpenResult.fail lo2 e2)])) := by
      rw [hD]
      simp only [retryOpen, ht, h2]
      simp [logEv, loadDsns_trace, loadDsns_dbs]
    refine ⟨this, ?_⟩
    rw [this]
    exact hmiss
  · intro h2 hok
    have hR : DBN w (fuel + 1) n s = checkAndSave w n h2
        (State.mk (loadDsns w s).2.dsns s.dbs (s.trace ++ loadEvents w s ++
          [Event.gormOpen (resolveDsn (loadDsns w s).2.dsns n) true (OpenResult.fail lo e),
            Event.gormOpen (resolveDsn (loadDsns w s).2.dsns n) false (OpenResult.ok h2)])) := by
      rw [hD]
      simp only [retryOpen, ht, hok]
      simp [logEv, loadDsns_trace, loadDsns_dbs]
    refine ⟨?_, ?_⟩
    · intro e3 h3
      rw [hR]
      simp only [checkAndSave, h3]
      simp [logEv]
    · intro h3
      rw [hR]
      simp only [checkAndSave, h3]
      simp [logEv, saveDb]

/-- A refused first open followed by a refused retry: the error of the retry is returned,
with the handle `gorm.Open` returned beside it, and "a" is not cached. -/
theorem DBN_other_open_failure_retries_witness :
    (DBN refusingWorld 1 "a" initState).1
      = Outcome.ret (some 9) (some "dial tcp: i/o timeout") ∧
    loadDb "a" (DBN refusingWorld 1 "a" initState).2 = none := by
  have h := (DBN_other_open_failure_retries refusingWorld 0 "a" initState (some 8)
      "dial tcp: connection refused" (by decide) (by decide) (by decide)).1 (some 9)
      "dial tcp: i/o timeout" (by decide)
  exact ⟨by rw [h.1], h.2⟩


/-! ## Closing a connection -/

/-- On a cache miss the first events `DBN` appends are those of `loadDsns`, followed by a
`gorm.Open` on the resolved connection string. -/
theorem DBN_miss_opens (w : World) (fuel : Nat) (n : String) (s : State)
    (hmiss : loadDb n s = none) :
    ∃ rest, (DBN w (fuel + 1) n s).2.trace = s.trace ++ loadEvents w s ++
      Event.gormOpen (resolveDsn (loadDsns w s).2.dsns n) true
        (w.gormOpen (loadDsns w s).2.trace (resolveDsn (loadDsns w s).2.dsns n) true)
        :: rest := by
  obtain ⟨new, hrun, _, hshape⟩ := DBN_succ_run w fuel (DBN_run w fuel) n s
  obtain ⟨rest, hrest⟩ := hshape hmiss
  refine ⟨rest, ?_⟩
  rw [hrun.1, hrest, List.append_assoc]

theorem DBClose_uncached (w : World) (n : String) (s : State) (h : loadDb n s = none) :
    DBClose w n s = (none, s) := by
  simp [DBClose, h]

theorem DBClose_success (w : World) (n : String) (s : State) (h : Handle)
    (hc : loadDb n s = some h) (h1 : w.sqlDB s.trace h = none)
    (h2 : w.closeDb (s.trace ++ [Event.sqlDB h none]) h = none) :
    DBClose w n s = (none, State.mk s.dsns (mdel s.dbs n)
      (s.trace ++ [Event.sqlDB h none, Event.close h none, Event.delDb n])) := by
  have e1 : (logEv s (Event.sqlDB h none)).trace = s.trace ++ [Event.sqlDB h none] := rfl
  simp only [DBClose, hc, h1, e1, h2]
  simp [delDb, logEv]

theorem DBClose_sqlDB_error (w : World) (n : String) (s : State) (h : Handle) (e : Err)
    (hc : loadDb n s = some h) (h1 : w.sqlDB s.trace h = some e) :
    DBClose w n s = (some e, State.mk s.dsns s.dbs (s.trace ++ [Event.sqlDB h (some e)])) := by
  simp only [DBClose, hc, h1]
  rfl

theorem DBClose_close_error (w : World) (n : String) (s : State) (h : Handle) (e : Err)
    (hc : loadDb n s = some h) (h1 : w.sqlDB s.trace h = none)
    (h2 : w.closeDb (s.trace ++ [Event.sqlDB h none]) h = some e) :
    DBClose w n s = (some e, State.mk s.dsns s.dbs
      (s.trace ++ [Event.sqlDB h none, Event.close h (some e)])) := by
  have e1 : (logEv s (Event.sqlDB h none)).trace = s.trace ++ [Event.sqlDB h none] := rfl
  simp only [DBClose, hc, h1, e1, h2]
  simp [logEv]

/-- C7 (counterexample): "x" is cached with handle 3 and closing the connection fails.
`DBClose("x")` returns the error and "x" stays cached, so the next `DBN("x")` returns the
old handle 3 without any new open. -/
theorem DBClose_failure_keeps_entry :
    loadDb "x" (DBN stuckWorld 1 "x" initState).2 = some 3 ∧
      (DBClose stuckWorld "x" (DBN stuckWorld 1 "x" initState).2).1
        = some "sql: close failed" ∧
      loadDb "x" (DBClose stuckWorld "x" (DBN stuckWorld 1 "x" initState).2).2 = some 3 ∧
      DBN stuckWorld 1 "x" (DBClose stuckWorld "x" (DBN stuckWorld 1 "x" initState).2).2
        = (Outcome.ret (some 3) none,
            (DBClose stuckWorld "x" (DBN stuckWorld 1 "x" initState).2).2) := by
  decide

/-- C7 (amended): for every name `n`. If `n` is not cached, `DBClose(n)` returns a nil
error and changes nothing: no call is made and the cache is unchanged. If `n` is cached
with handle `h` and both `db.DB()` and `Close()` succeed, `DBClose(n)` returns a nil error
and deletes `n` from the cache, leaving every other entry unchanged, and a following
`DBN(n)` misses the cache and performs a new `gorm.Open`. If `db.DB()` or `Close()` fails,
`DBClose(n)` returns that error and the cache is unchanged. -/
theorem DBClose_removes_when_close_succeeds (w : World) (n : String) (s : State) :
    (loadDb n s = none → DBClose w n s = (none, s)) ∧
    (∀ h, loadDb n s = some h → w.sqlDB s.trace h = none →
      w.closeDb (s.trace ++ [Event.sqlDB h none]) h = none →
      DBClose w n s = (none, State.mk s.dsns (mdel s.dbs n)
        (s.trace ++ [Event.sqlDB h none, Event.close h none, Event.delDb n])) ∧
      loadDb n (DBClose w n s).2 = none ∧
      (∀ k, k ≠ n → loadDb k (DBClose w n s).2 = loadDb k s) ∧
      (∀ fuel, ∃ rest, (DBN w (fuel + 1) n (DBClose w n s).2).2.trace =
        (DBClose w n s).2.trace ++ loadEvents w (DBClose w n s).2 ++
          Event.gormOpen (resolveDsn (loadDsns w (DBClose w n s).2).2.dsns n) true
            (w.gormOpen (loadDsns w (DBClose w n s).2).2.trace
              (resolveDsn (loadDsns w (DBClose w n s).2).2.dsns n) true) :: rest)) ∧
    (∀ h e, loadDb n s = some h → w.sqlDB s.trace h = some e →
      DBClose w n s = (some e, State.mk s.dsns s.dbs
        (s.trace ++ [Event.sqlDB h (some e)]))) ∧
    (∀ h e, loadDb n s = some h → w.sqlDB s.trace h = none →
      w.closeDb (s.trace ++ [Event.sqlDB h none]) h = some e →
      DBClose w n s = (some e, State.mk s.dsns s.dbs
        (s.trace ++ [Event.sqlDB h none, Event.close h (some e)]))) := by
  refine ⟨DBClose_uncached w n s, ?_, ?_, ?_⟩
  · intro h hc h1 h2
    have hD := DBClose_success w n s h hc h1 h2
    have hgone : loadDb n (DBClose w n s).2 = none := by
      rw [hD]; exact mget_mdel_self s.dbs n
    refine ⟨hD, hgone, ?_, ?_⟩
    · intro k hk
      rw [hD]; exact mget_mdel_ne s.dbs n k hk
    · intro fuel
      exact DBN_miss_opens w fuel n _ hgone
  · intro h e hc h1
    exact DBClose_sqlDB_error w n s h e hc h1
  · intro h e hc h1 h2
    exact DBClose_close_error w n s h e hc h1 h2

/-- A cached "x" closed without error: "x" is gone from the cache and the next `DBN("x")`
opens a new connection and returns its handle 4 instead of the old handle 3. -/
theorem DBClose_removes_when_close_succeeds_witness :
    loadDb "x" (DBN calmWorld 1 "x" initState).2 = some 3 ∧
      loadDb "x" (DBClose calmWorld "x" (DBN calmWorld 1 "x" initState).2).2 = none ∧
      (DBN calmWorld 1 "x" (DBClose calmWorld "x" (DBN calmWorld 1 "x" initState).2).2).1
        = Outcome.ret (some 4) none :=
  ⟨by decide,
    ((DBClose_removes_when_close_succeeds calmWorld "x"
      (DBN calmWorld 1 "x" initState).2).2.1 3 (by decide) (by decide) (by decide)).2.1,
    by decide⟩


/-! ## Closing all connections -/

theorem eq_nil_of_mget_none {β : Type} (m : GoMap β) (h : ∀ k, mget m k = none) :
    m = [] := by
  cases m with
  | nil => rfl
  | cons kv m =>
    obtain ⟨k, v⟩ := kv
    have := h k
    simp [mget] at this

/-- What one `DBClose(n)` does, whatever the world answers. -/
theorem DBClose_step (w : World) (n : String) (s : State) :
    ∃ new, (DBClose w n s).2.trace = s.trace ++ new ∧
      (∀ k, loadDb k (DBClose w n s).2 = none ∨ loadDb k (DBClose w n s).2 = loadDb k s) ∧
      (∀ h, loadDb n s = some h → (∃ r, Event.sqlDB h r ∈ new) ∧
        (loadDb n (DBClose w n s).2 = none ∨
          ∃ e, Event.sqlDB h (some e) ∈ new ∨ Event.close h (some e) ∈ new)) ∧
      ((∀ hist h, w.sqlDB hist h = none ∧ w.closeDb hist h = none) →
        loadDb n (DBClose w n s).2 = none) := by
  cases hc : loadDb n s with
  | none =>
    rw [DBClose_uncached w n s hc]
    exact ⟨[], by simp, fun k => Or.inr rfl, fun h hh => (by cases hh), fun _ => hc⟩
  | some h =>
    cases h1 : w.sqlDB s.trace h with
    | some e =>
      rw [DBClose_sqlDB_error w n s h e hc h1]
      refine ⟨[Event.sqlDB h (some e)], rfl, fun k => Or.inr rfl, ?_, ?_⟩
      · intro h2 hh
        cases hh
        exact ⟨⟨_, List.mem_singleton.2 rfl⟩, Or.inr ⟨e, Or.inl (List.mem_singleton.2 rfl)⟩⟩
      · intro hall
        rw [(hall s.trace h).1] at h1
        cases h1
    | none =>
      cases h2 : w.closeDb (s.trace ++ [Event.sqlDB h none]) h with
      | some e =>
        rw [DBClose_close_error w n s h e hc h1 h2]
        refine ⟨[Event.sqlDB h none, Event.close h (some e)], rfl, fun k => Or.inr rfl, ?_, ?_⟩
        · intro h3 hh
          cases hh
          exact ⟨⟨none, by simp⟩, Or.inr ⟨e, Or.inr (by simp)⟩⟩
        · intro hall
          rw [(hall _ h).2] at h2
          cases h2
      | none =>
        rw [DBClose_success w n s h hc h1 h2]
        refine ⟨[Event.sqlDB h none, Event.close h none, Event.delDb n], rfl, ?_, ?_, ?_⟩
        · intro k
          by_cases hk : k = n
          · left; subst hk; exact mget_mdel_self s.dbs k
          · right; exact mget_mdel_ne s.dbs n k hk
        · intro h3 hh
          cases hh
          exact ⟨⟨none, by simp⟩, Or.inl (mget_mdel_self s.dbs n)⟩
        · intro _
          exact mget_mdel_self s.dbs n

theorem DBClose_keeps_other (w : World) (n k : String) (s : State) (hk : k ≠ n) :
    loadDb k (DBClose w n s).2 = loadDb k s := by
  cases hc : loadDb n s with
  | none => rw [DBClose_uncached w n s hc]
  | some h =>
    cases h1 : w.sqlDB s.trace h with
    | some e => rw [DBClose_sqlDB_error w n s h e hc h1]; rfl
    | none =>
      cases h2 : w.closeDb (s.trace ++ [Event.sqlDB h none]) h with
      | some e => rw [DBClose_close_error w n s h e hc h1 h2]; rfl
      | none =>
        rw [DBClose_success w n s h hc h1 h2]
        exact mget_mdel_ne s.dbs n k hk

/-- What the loop of `DBCloseAll` does on the names `ks`. -/
theorem closeEach_spec (w : World) (ks : List String) : ∀ (s : State),
    ∃ new, (closeEach w ks s).trace = s.trace ++ new ∧
      (∀ k, loadDb k (closeEach w ks s) = none ∨ loadDb k (closeEach w ks s) = loadDb k s) ∧
      (∀ k h, k ∈ ks → loadDb k s = some h → (∃ r, Event.sqlDB h r ∈ new) ∧
        (loadDb k (closeEach w ks s) = none ∨
          ∃ e, Event.sqlDB h (some e) ∈ new ∨ Event.close h (some e) ∈ new)) ∧
      ((∀ hist h, w.sqlDB hist h = none ∧ w.closeDb hist h = none) →
        ∀ k ∈ ks, loadDb k (closeEach w ks s) = none) := by
  induction ks with
  | nil =>
    intro s
    exact ⟨[], by simp [closeEach], fun k => Or.inr rfl, fun k h hk => (by cases hk),
      fun _ k hk => (by cases hk)⟩
  | cons k0 ks ih =>
    intro s
    obtain ⟨new1, ht1, hm1, ha1, hall1⟩ := DBClose_step w k0 s
    obtain ⟨new2, ht2, hm2, ha2, hall2⟩ := ih (DBClose w k0 s).2
    have hmono : ∀ k, loadDb k (closeEach w ks (DBClose w k0 s).2) = none ∨
        loadDb k (closeEach w ks (DBClose w k0 s).2) = loadDb k s := by
      intro k
      rcases hm2 k with h | h
      · exact Or.inl h
      · rcases hm1 k with h3 | h3
        · left; rw [h, h3]
        · right; rw [h, h3]
    have hstay : ∀ k, loadDb k (DBClose w k0 s).2 = none →
        loadDb k (closeEach w ks (DBClose w k0 s).2) = none := by
      intro k hk
      rcases hm2 k with h | h
      · exact h
      · rw [h, hk]
    refine ⟨new1 ++ new2, ?_, ?_, ?_, ?_⟩
    · simp only [closeEach]
      rw [ht2, ht1, List.append_assoc]
    · simpa only [closeEach] using hmono
    · intro k h hk hc
      simp only [closeEach]
      by_cases hk0 : k = k0
      · subst hk0
        obtain ⟨⟨r, hr⟩, hres⟩ := ha1 h hc
        refine ⟨⟨r, List.mem_append_left _ hr⟩, ?_⟩
        rcases hres with hgone | ⟨e, he⟩
        · exact Or.inl (hstay k hgone)
        · right
          refine ⟨e, ?_⟩
          rcases he with he | he
          · exact Or.inl (List.mem_append_left _ he)
          · exact Or.inr (List.mem_append_left _ he)
      · have hin : k ∈ ks := by
          rcases List.mem_cons.1 hk with h1 | h1
          · exact absurd h1 hk0
          · exact h1
        have h3 := DBClose_keeps_other w k0 k s hk0
        obtain ⟨⟨r, hr⟩, hres⟩ := ha2 k h hin (by rw [h3, hc])
        refine ⟨⟨r, List.mem_append_right _ hr⟩, ?_⟩
        rcases hres with hgone | ⟨e, he⟩
        · exact Or.inl hgone
        · right
          refine ⟨e, ?_⟩
          rcases he with he | he
          · exact Or.inl (List.mem_append_right _ he)
          · exact Or.inr (List.mem_append_right _ he)
    · intro hall k hk
      simp only [closeEach]
      rcases List.mem_cons.1 hk with h1 | h1
      · subst h1
        exact hstay k (hall1 hall)
      · exact hall2 hall k h1


/-- C8: for every cache state, every world and every order in which `range dbs` yields
the keys of the cache, `DBCloseAll` adds and changes no cache entry, and every name `k`
cached with handle `h` at the time of the call has its close attempted (`db.DB()` is
called on `h`), whatever happened to the names before it. After `DBCloseAll`, `k` is
absent from the cache unless a call of its close (`db.DB()` or `Close()` on `h`) returned
an error; and when no close call returns an error the cache is empty. -/
theorem DBCloseAll_closes_every_cached_name (w : World) (order : List String) (s : State)
    (horder : ∀ k h, loadDb k s = some h → k ∈ order) :
    ∃ new, (DBCloseAll w order s).trace = s.trace ++ new ∧
      (∀ k, loadDb k (DBCloseAll w order s) = none ∨
        loadDb k (DBCloseAll w order s) = loadDb k s) ∧
      (∀ k h, loadDb k s = some h →
        (∃ r, Event.sqlDB h r ∈ new) ∧
        (loadDb k (DBCloseAll w order s) = none ∨
          ∃ e, Event.sqlDB h (some e) ∈ new ∨ Event.close h (some e) ∈ new)) ∧
      ((∀ hist h, w.sqlDB hist h = none ∧ w.closeDb hist h = none) →
        (DBCloseAll w order s).dbs = []) := by
  obtain ⟨new, ht, hm, ha, hall⟩ := closeEach_spec w (closeAllKeys order s) s
  have hin : ∀ k h, loadDb k s = some h → k ∈ closeAllKeys order s := by
    intro k h hc
    unfold closeAllKeys
    exact List.mem_append_right _ (horder k h hc)
  refine ⟨new, ht, hm, ?_, ?_⟩
  · intro k h hc
    exact ha k h (hin k h hc) hc
  · intro hok
    apply eq_nil_of_mget_none
    intro k
    cases hc : loadDb k s with
    | none =>
      rcases hm k with h1 | h1
      · exact h1
      · rw [hc] at h1; exact h1
    | some h => exact hall hok k (hin k h hc)

/-- Two cached names, visited as "y" then "x": when every close succeeds the cache ends
empty; when closing the handle of "y" fails, "y" stays cached and "x", which comes after
it, is closed and removed all the same. -/
theorem DBCloseAll_closes_every_cached_name_witness :
    (DBN calmWorld 1 "y" (DBN calmWorld 1 "x" initState).2).2.dbs = [("x", 3), ("y", 4)] ∧
      (DBCloseAll calmWorld ["y", "x"]
        (DBN calmWorld 1 "y" (DBN calmWorld 1 "x" initState).2).2).dbs = [] ∧
      (DBCloseAll halfWorld ["y", "x"]
        (DBN halfWorld 1 "y" (DBN halfWorld 1 "x" initState).2).2).dbs = [("y", 4)] := by
  have hs : (DBN calmWorld 1 "y" (DBN calmWorld 1 "x" initState).2).2.dbs
      = [("x", 3), ("y", 4)] := by decide
  have horder : ∀ k h, loadDb k (DBN calmWorld 1 "y" (DBN calmWorld 1 "x" initState).2).2
      = some h → k ∈ ["y", "x"] := by
    intro k h hk
    rw [loadDb, hs] at hk
    simp only [mget] at hk
    split at hk
    · simp_all
    · split at hk
      · simp_all
      · cases hk
  obtain ⟨_, _, _, _, h⟩ := DBCloseAll_closes_every_cached_name calmWorld ["y", "x"]
    (DBN calmWorld 1 "y" (DBN calmWorld 1 "x" initState).2).2 horder
  exact ⟨hs, h (fun _ _ => ⟨rfl, rfl⟩), by decide⟩

/-! ## The configuration listener -/

theorem mget_overlay (m doc : DsnMap) (k : String) :
    mget (overlay m doc) k = match mget doc k with
      | some v => some v
      | none => mget m k := by
  induction doc with
  | nil => rfl
  | cons kv doc ih =>
    obtain ⟨k2, v2⟩ := kv
    by_cases hk : k2 = k
    · subst hk
      simp [overlay, mget, mget_mset_self]
    · have hk3 : k ≠ k2 := fun h => hk h.symm
      have : mget (overlay m ((k2, v2) :: doc)) k = mget (overlay m doc) k := by
        simp only [overlay, List.foldr_cons]
        exact mget_mset_ne _ k2 k v2 hk3
      rw [this, ih]
      simp [mget, hk]

/-- C9 (counterexample): the mapping is `{"a": "one"}` and the payload parses to the
mapping `{"b": "two"}`. After the listener has processed the payload the mapping is not
`{"b": "two"}`: the key "a" is still present, and "a" still resolves to its old entry. -/
theorem listenerStep_keeps_old_keys :
    calmWorld.yamlParse "b: two" = YamlDoc.mapping [("b", "two")] ∧
      (listenerStep calmWorld "b: two" (State.mk (some [("a", "one")]) [] [])).dsns
        ≠ some [("b", "two")] ∧
      dsnLookup (listenerStep calmWorld "b: two" (State.mk (some [("a", "one")]) [] [])).dsns
        "a" = some "one" ∧
      resolveDsn (listenerStep calmWorld "b: two" (State.mk (some [("a", "one")]) [] [])).dsns
        "a" = "one" := by
  decide

/-- C9 (amended): for every payload that parses to a mapping `m2`, the listener decodes it
into the map `dsns` already holds. After the step every key of `m2` has its value from
`m2`, and a key absent from `m2` keeps the value it had in the previous mapping: the
previous mapping is merged with `m2`, not replaced. Only when `dsns` was nil is the new
mapping exactly `m2`. The cache and the trace are not touched. -/
theorem listenerStep_merges_payload (w : World) (payload : String) (s : State) (m2 : DsnMap)
    (hparse : w.yamlParse payload = YamlDoc.mapping m2) :
    (s.dsns = none → (listenerStep w payload s).dsns = some m2) ∧
      (∀ m, s.dsns = some m → ∀ k,
        dsnLookup (listenerStep w payload s).dsns k = match mget m2 k with
          | some v => some v
          | none => mget m k) ∧
      (listenerStep w payload s).dbs = s.dbs ∧
      (listenerStep w payload s).trace = s.trace := by
  refine ⟨?_, ?_, rfl, rfl⟩
  · intro hs
    simp [listenerStep, hparse, hs, yamlDecodeInto]
  · intro m hs k
    simp only [listenerStep, hparse, hs, yamlDecodeInto, dsnLookup]
    exact mget_overlay m m2 k

/-- The payload `b: two` received while the mapping is `{"a": "one"}`: both "a" and "b" are keys afterwards. -/
theorem listenerStep_merges_payload_witness :
    dsnLookup (listenerStep calmWorld "b: two" (State.mk (some [("a", "one")]) [] [])).dsns
        "b" = some "two" ∧
      dsnLookup (listenerStep calmWorld "b: two" (State.mk (some [("a", "one")]) [] [])).dsns
        "a" = some "one" := by
  have h := (listenerStep_merges_payload calmWorld "b: two"
    (State.mk (some [("a", "one")]) [] []) [("b", "two")] (by decide)).2.1
      [("a", "one")] rfl
  exact ⟨by rw [h "b"]; decide, by rw [h "a"]; decide⟩

end Dbmgr

namespace Config

/-! ## The file of a request -/

/-- The handlers `get` and `post` name the same file for every request path. -/
theorem getFile_eq_postFile (urlPath : String) : getFile urlPath = postFile urlPath := rfl

/-- C10 (failing input): for the request path `/k/dsn`, `post` writes and `get` reads
`db/dsn.yaml`, while `delete` removes `db/dsn`. A key stored by `post` is therefore not
removed by `delete` on the same path: on a disk that holds what `post` wrote, `delete`
returns the error of `os.Remove` and the file is still served by `get`. -/
theorem delete_targets_other_file :
    postFile "/k/dsn" = some "db/dsn.yaml" ∧
      getFile "/k/dsn" = some "db/dsn.yaml" ∧
      deleteFile "/k/dsn" = some "db/dsn" ∧
      post diskOs [] (Request.mk "/k/dsn" false (ReadResult.ok "a: b"))
        = some (none, [FsEvent.mkdirAll "db", FsEvent.writeFile "db/dsn.yaml" "a: b" none,
            FsEvent.pub "config" "dsn"]) ∧
      delete diskOs [FsEvent.mkdirAll "db", FsEvent.writeFile "db/dsn.yaml" "a: b" none,
            FsEvent.pub "config" "dsn"] (Request.mk "/k/dsn" false (ReadResult.ok ""))
        = some (some "remove db/dsn: no such file or directory",
            [FsEvent.mkdirAll "db", FsEvent.writeFile "db/dsn.yaml" "a: b" none,
              FsEvent.pub "config" "dsn",
              FsEvent.remove "db/dsn" (some "remove db/dsn: no such file or directory"),
              FsEvent.pub "config" "/k/dsn"]) ∧
      get diskOs [FsEvent.mkdirAll "db", FsEvent.writeFile "db/dsn.yaml" "a: b" none,
            FsEvent.pub "config" "dsn",
            FsEvent.remove "db/dsn" (some "remove db/dsn: no such file or directory"),
            FsEvent.pub "config" "/k/dsn"] (Request.mk "/k/dsn" false (ReadResult.ok ""))
        = some (none,
            [FsEvent.mkdirAll "db", FsEvent.writeFile "db/dsn.yaml" "a: b" none,
              FsEvent.pub "config" "dsn",
              FsEvent.remove "db/dsn" (some "remove db/dsn: no such file or directory"),
              FsEvent.pub "config" "/k/dsn",
              FsEvent.readFile "db/dsn.yaml" (ReadResult.ok "a: b"),
              FsEvent.respond "a: b"]) := by
  decide

/-- For every operating system, history and request, `delete` calls `os.Remove` on the
file `deleteFile` names, returns its error and publishes the URL path. -/
theorem delete_calls_deleteFile (os : Os) (hist : List FsEvent) (r : Request) (f : String)
    (hf : deleteFile r.urlPath = some f) :
    delete os hist r = some (os.remove hist f,
      hist ++ [FsEvent.remove f (os.remove hist f), FsEvent.pub "config" r.urlPath]) := by
  unfold deleteFile at hf
  unfold delete
  cases hp : fixPath r.urlPath with
  | none => simp [hp] at hf
  | some npath =>
    simp only [hp, Option.map_some', Option.some.injEq] at hf
    subst hf
    rfl

/-- For every operating system, history and request that carries a body and no
`fmt=json`, `post` writes the body to the file `postFile` names. -/
theorem post_writes_postFile (os : Os) (hist : List FsEvent) (urlPath body f : String)
    (hf : postFile urlPath = some f) :
    ∃ dir, post os hist (Request.mk urlPath false (ReadResult.ok body)) =
      some (os.writeFile (hist ++ [FsEvent.mkdirAll dir]) f body,
        hist ++ [FsEvent.mkdirAll dir] ++
          [FsEvent.writeFile f body (os.writeFile (hist ++ [FsEvent.mkdirAll dir]) f body),
            FsEvent.pub "config" ((fixPath urlPath).getD "")]) := by
  unfold postFile at hf
  unfold post
  cases hp : fixPath urlPath with
  | none => simp [hp] at hf
  | some npath =>
    simp only [hp, Option.map_some', Option.some.injEq] at hf
    subst hf
    exact ⟨filepathJoin [root, filepathDir npath], rfl⟩

end Config
